import Mathlib

/-!
Shallow embedding of the booking lifecycle engine of the `memento_mori`
repository (files `booking_validator.py`, `database.py`, `booking_scheduler.py`,
`booking_handler.py`, `handlers.py`, `notifier.py`, `timezone_utils.py`,
`config.py`).

Modelling conventions, fixed once for the whole file:

* A time of day is the number of minutes from midnight (a `Nat`).  The source
  stores times as zero-padded `"HH:MM"` strings and compares them with string
  comparison; on zero-padded `"HH:MM"` strings lexicographic order coincides
  with the numeric order of the minute values, so `Nat` comparisons are a
  faithful model of every string comparison the source performs.
* A civil date (`"YYYY-MM-DD"` in the source) is a day index (a `Nat`);
  `parse_booking_dt(date, time)` of `timezone_utils.py`, which turns a
  date and a time of day into an absolute instant, becomes
  `1440 * date + time` (absolute minutes).  `minutes_until` of
  `timezone_utils.py` is the signed difference of absolute minutes.
  `strftime("%H:%M")` applied to an absolute instant is `% 1440`.
* Timestamps written to the store (`ts_for_db(now_msk())`) are modelled as
  the absolute minute `now` of the clock at the moment of the write.
* SQLite integer flags (`remind_sent`, `group_notified`) stay `Nat` (0/1),
  statuses and event kinds stay the `String` literals of the source.
* `duration_hours` (a float in the source, only stored and displayed, never
  used by the logic verified here) is kept as the duration in minutes
  (`duration_min`); `duration_hours = duration_min / 60` exactly.
-/

namespace MementoMori

/-- `config.py`: `BOOKING_MAX_HOURS` (default configuration value 2). -/
def BOOKING_MAX_HOURS : Nat := 2

/-- `config.py`: `BOOKING_CONFIRM_BEFORE_MINUTES` (default 5), the reminder
lead time in minutes. -/
def BOOKING_CONFIRM_BEFORE_MINUTES : Int := 5

/-- `config.py`: `BOOKING_CONFIRM_GRACE_MINUTES` (default 5), the grace
period in minutes after the start of an unconfirmed booking. -/
def BOOKING_CONFIRM_GRACE_MINUTES : Int := 5

/-- `database.py`: the `Booking` dataclass / the `bookings` table row. -/
structure Booking where
  id : Nat
  tg_id : Nat
  tg_nickname : String
  mangabuff_nick : String
  date : Nat
  start_time : Nat
  end_time : Nat
  duration_min : Nat
  status : String
  created_at : Nat
  confirmed_at : Option Nat
  cancelled_at : Option Nat
  completed_at : Option Nat
  cancelled_by : Option String
  cancel_reason : Option String
  remind_sent : Nat
  group_notified : Nat
deriving DecidableEq, Repr

/-- `database.py`: a row of the append-only `booking_events` table. -/
structure BookingEvent where
  booking_id : Nat
  event_type : String
  actor_tg_id : Option Nat
  actor_label : String
  note : Option String
  event_at : Nat
deriving DecidableEq, Repr

/-- The durable store: the `bookings` table, the `booking_events` table and
the AUTOINCREMENT counter for the next booking id. -/
structure DB where
  bookings : List Booking
  events : List BookingEvent
  nextId : Nat
deriving DecidableEq, Repr

/-- `parse_booking_dt(date, time)` of `timezone_utils.py`: the absolute
instant (in minutes) of a civil date plus a time of day. -/
def absMin (date time : Nat) : Nat := 1440 * date + time

/-- The absolute start instant of a booking. -/
def Booking.startAbs (b : Booking) : Nat := absMin b.date b.start_time

/-- The absolute end instant of a booking. -/
def Booking.endAbs (b : Booking) : Nat := absMin b.date b.end_time

/-- Python's `range(a, b, step)` for `step > 0`: the ascending list
`a, a + step, …` of all such values `< b`. -/
def pyRange (a b step : Nat) : List Nat :=
  List.range' a ((b - a + step - 1) / step) step

/-!
## Slot calculator (`booking_validator.py`)
-/

/-- `booking_validator.get_next_half_hour`: minutes from midnight of the
nearest future half-hour boundary, `math.ceil((minutes + 1) / 30) * 30`.
`nowMin` is the current time of day in minutes (seconds are discarded by the
source, which reads only `now.hour` and `now.minute`). -/
def get_next_half_hour (nowMin : Nat) : Nat :=
  ((nowMin + 1 + 29) / 30) * 30

/-- `booking_validator.get_available_start_slots`.  `selectedDate` is the
chosen civil date, `nowAbs` the current absolute minute (so "today" is
`nowAbs / 1440` and the current time of day is `nowAbs % 1440`), `busy` the
list of active bookings for that date.  Generates the half-hour boundaries
from the computed first slot to the end of the day and drops every boundary
equal to the start time of a busy booking. -/
def get_available_start_slots (selectedDate : Nat) (nowAbs : Nat)
    (busy : List Booking) : List Nat :=
  (pyRange
      (if selectedDate = nowAbs / 1440
        then get_next_half_hour (nowAbs % 1440) else 0)
      (24 * 60) 30).filter
    (fun m => !(busy.any (fun b => b.start_time == m)))

/-- `booking_validator.has_conflict_with_bookings`: interval overlap of
`[s, e)` against any booking of the list, written exactly as the source
writes it: conflict iff not (the new one ends before the old one starts or
the new one starts after the old one ends). -/
def has_conflict_with_bookings (s e : Nat) (bookings : List Booking) : Bool :=
  bookings.any (fun b => !(decide (e ≤ b.start_time) || decide (s ≥ b.end_time)))

/-- The loop body of `booking_validator.get_available_end_slots`: walk the
candidate offsets, stop (`break`) when the candidate instant passes
`max_end` or when the candidate conflicts with a busy booking; otherwise
emit the candidate formatted as a time of day (`strftime("%H:%M")`, i.e.
`% 1440`). -/
def end_slots_go (startAbsV maxEndAbs startTime : Nat) (busy : List Booking) :
    List Nat → List Nat
  | [] => []
  | d :: rest =>
    if startAbsV + d > maxEndAbs then []
    else if has_conflict_with_bookings startTime ((startAbsV + d) % 1440) busy then []
    else (startAbsV + d) % 1440 :: end_slots_go startAbsV maxEndAbs startTime busy rest

/-- `booking_validator.get_available_end_slots`: candidate end slots at
30-minute increments after `startTime`, from `range(30, BOOKING_MAX_HOURS*60 + 1, 30)`,
bounded by `start + BOOKING_MAX_HOURS` hours (`max_end`), stopping at the
first conflict. -/
def get_available_end_slots (date startTime : Nat) (busy : List Booking) :
    List Nat :=
  end_slots_go (absMin date startTime)
    (absMin date startTime + BOOKING_MAX_HOURS * 60) startTime busy
    (pyRange 30 (BOOKING_MAX_HOURS * 60 + 1) 30)

/-!
## Conflict arbiter (`database.check_booking_conflict`,
`booking_validator.validate_booking_slot`)
-/

/-- The `AND id != ?` clause appended by `check_booking_conflict` when the
Python guard `if exclude_booking_id:` is truthy (non-`None`, non-zero). -/
def excludeFilter : Option Nat → List Booking → List Booking
  | some i, base => if i ≠ 0 then base.filter (fun (b : Booking) => b.id != i) else base
  | none, base => base

/-- `database.check_booking_conflict`: counts rows of the `bookings` table
on `date` in an active status whose interval overlaps `[s, e)`, optionally
excluding one booking id.  Returns whether the count is positive. -/
def check_booking_conflict (table : List Booking) (date s e : Nat)
    (exclude_booking_id : Option Nat) : Bool :=
  decide (0 <
    (excludeFilter exclude_booking_id
      (table.filter (fun b =>
        b.date == date
        && (b.status == "pending" || b.status == "confirmed")
        && !(decide (b.end_time ≤ s) || decide (b.start_time ≥ e))))).length)

/-- `booking_validator.validate_booking_slot`: the composite gate run before
a booking is persisted.  Checks, short-circuiting in order: end after start,
duration within the maximum, no conflict in the store.  The duration check of
the source compares `(end_dt - start_dt).total_seconds() / 3600 > BOOKING_MAX_HOURS`,
which for same-day instants is exactly `e - s > BOOKING_MAX_HOURS * 60`
minutes. -/
def validate_booking_slot (table : List Booking) (date s e : Nat)
    (exclude_booking_id : Option Nat) : Bool × String :=
  if e ≤ s then
    (false, "Время окончания должно быть позже времени начала")
  else if BOOKING_MAX_HOURS * 60 < e - s then
    (false, "Максимальная длительность брони: 2 ч")
  else if check_booking_conflict table date s e exclude_booking_id then
    (false, "Этот слот уже занят")
  else
    (true, "")

/-!
## Booking store operations (`database.py`)

Each Python function opens a connection, performs its statements and commits;
every definition below is one such atomic commit.
-/

/-- An `UPDATE bookings SET … WHERE id = ?`: apply `g` to every row whose id
matches (the unique-id index makes it at most one row in practice). -/
def updRow (g : Booking → Booking) (i : Nat) (l : List Booking) : List Booking :=
  l.map (fun b => if b.id = i then g b else b)

/-- `SELECT * FROM bookings WHERE id = ?` (`database.get_booking`). -/
def findB (db : DB) (i : Nat) : Option Booking :=
  db.bookings.find? (fun b => b.id == i)

/-- The number of events of a given type recorded for a booking. -/
def eventCount (db : DB) (i : Nat) (ty : String) : Nat :=
  (db.events.filter (fun e => e.booking_id == i && e.event_type == ty)).length

/-- `database.create_booking`: inserts the booking row (status `'pending'`)
and its `'created'` event in one transaction, returning the new id via
`lastrowid` (modelled by the `nextId` counter). -/
def create_booking (db : DB) (tg : Nat) (tgNick mbNick : String)
    (date s e durMin now : Nat) : DB × Nat :=
  let bid := db.nextId
  ({ bookings := db.bookings ++
      [{ id := bid, tg_id := tg, tg_nickname := tgNick,
         mangabuff_nick := mbNick, date := date, start_time := s,
         end_time := e, duration_min := durMin, status := "pending",
         created_at := now, confirmed_at := none, cancelled_at := none,
         completed_at := none, cancelled_by := none, cancel_reason := none,
         remind_sent := 0, group_notified := 0 }],
     events := db.events ++
      [{ booking_id := bid, event_type := "created", actor_tg_id := some tg,
         actor_label := "user", note := none, event_at := now }],
     nextId := bid + 1 }, bid)

/-- `database.confirm_booking`: sets status `'confirmed'` and `confirmed_at`. -/
def confirm_booking (db : DB) (bid now : Nat) : DB :=
  { db with
    bookings :=
      updRow (fun b => { b with status := "confirmed", confirmed_at := some now })
        bid db.bookings }

/-- The `status_map` of `database.cancel_booking` (`dict.get` with default
`'cancelled'`). -/
def cancelStatusOf (cancelled_by : String) : String :=
  if cancelled_by = "user" then "cancelled_by_user"
  else if cancelled_by = "admin" then "cancelled_by_admin"
  else if cancelled_by = "system" then "cancelled"
  else "cancelled"

/-- `database.cancel_booking`: sets the status given by `status_map`,
`cancelled_at`, `cancelled_by` and `cancel_reason`. -/
def cancel_booking (db : DB) (bid : Nat) (cancelled_by reason : String)
    (now : Nat) : DB :=
  { db with
    bookings :=
      updRow (fun b =>
          { b with status := cancelStatusOf cancelled_by,
                   cancelled_at := some now,
                   cancelled_by := some cancelled_by,
                   cancel_reason := some reason })
        bid db.bookings }

/-- `database.complete_booking`: sets status `'completed'` and `completed_at`. -/
def complete_booking (db : DB) (bid now : Nat) : DB :=
  { db with
    bookings :=
      updRow (fun b => { b with status := "completed", completed_at := some now })
        bid db.bookings }

/-- `database.mark_remind_sent`: `UPDATE bookings SET remind_sent = 1`. -/
def mark_remind_sent (db : DB) (bid : Nat) : DB :=
  { db with bookings := updRow (fun b => { b with remind_sent := 1 }) bid db.bookings }

/-- `database.mark_group_notified`: `UPDATE bookings SET group_notified = 1`.
(The scheduler and the command handlers import this name from `notifier`,
where it is not defined; the only definition in the repository is this one
in `database.py`, which is what the call sites mean.) -/
def mark_group_notified (db : DB) (bid : Nat) : DB :=
  { db with bookings := updRow (fun b => { b with group_notified := 1 }) bid db.bookings }

/-- `database.add_booking_event`: appends one event row. -/
def add_booking_event (db : DB) (bid : Nat) (ty : String)
    (actorLabel : String) (actorTg : Option Nat) (now : Nat) : DB :=
  { db with events := db.events ++
      [{ booking_id := bid, event_type := ty, actor_tg_id := actorTg,
         actor_label := actorLabel, note := none, event_at := now }] }

/-- `database.get_bookings_needing_reminder`: `status = 'pending' AND
remind_sent = 0`. -/
def get_bookings_needing_reminder (db : DB) : List Booking :=
  db.bookings.filter (fun b => b.status == "pending" && b.remind_sent == 0)

/-- `database.get_bookings_needing_cancellation`: `status = 'pending' AND
remind_sent = 1`. -/
def get_bookings_needing_cancellation (db : DB) : List Booking :=
  db.bookings.filter (fun b => b.status == "pending" && b.remind_sent == 1)

/-- `database.get_bookings_to_complete`: `status = 'confirmed'`. -/
def get_bookings_to_complete (db : DB) : List Booking :=
  db.bookings.filter (fun b => b.status == "confirmed")

/-!
## Scheduler passes (`booking_scheduler.py`) and outbound notifications
(`notifier.py`)

The notifier functions attempt a Telegram send and return `True` on success,
`False` on `TelegramError` (the error is caught inside the notifier, so the
scheduler loop body continues either way).  Transport outcomes are modelled
by oracles `… : Nat → Bool` (booking id ↦ whether the send succeeds); a
message `Effect` is emitted exactly when a message is actually delivered.
-/

/-- An outbound message actually delivered to the chat transport. -/
inductive Effect where
  | remindMsg (bid : Nat)
  | userCancelMsg (bid : Nat)
  | groupCancelMsg (bid : Nat)
deriving DecidableEq, Repr

/-- Run the per-booking loop body `step` over the list fetched at the start
of a scheduler pass, threading the store and concatenating the delivered
messages (the shape of every `for booking in bookings:` loop of
`booking_scheduler.py`). -/
def runSteps (step : DB → Booking → DB × List Effect) :
    List Booking → DB → DB × List Effect
  | [], db => (db, [])
  | b :: rest, db =>
    let r := step db b
    let r2 := runSteps step rest r.1
    (r2.1, r.2 ++ r2.2)

/-- The loop body of `booking_scheduler.check_upcoming_bookings`: if
`0 ≤ minutes_until(start) ≤ BOOKING_CONFIRM_BEFORE_MINUTES`, attempt the
reminder (`notifier.send_booking_reminder`); on success set `remind_sent`
and append a `'remind_sent'` event. -/
def remindStep (now : Nat) (remindOk : Nat → Bool) (db : DB) (b : Booking) :
    DB × List Effect :=
  if 0 ≤ (b.startAbs : Int) - (now : Int)
      ∧ (b.startAbs : Int) - (now : Int) ≤ BOOKING_CONFIRM_BEFORE_MINUTES then
    if remindOk b.id then
      (add_booking_event (mark_remind_sent db b.id) b.id "remind_sent" "system"
        none now,
       [Effect.remindMsg b.id])
    else (db, [])
  else (db, [])

/-- `booking_scheduler.check_upcoming_bookings`: fetch the pending bookings
with `remind_sent = 0` and run the reminder body over them. -/
def check_upcoming_bookings (now : Nat) (remindOk : Nat → Bool) (db : DB) :
    DB × List Effect :=
  runSteps (remindStep now remindOk) (get_bookings_needing_reminder db) db

/-- The cancellation reason string used by the timeout pass. -/
def timeoutReason : String := "Не подтверждена в течение 5 минут после начала"

/-- The loop body of `booking_scheduler.check_expired_bookings`: if
`minutes_since_start = -minutes_until(start) ≥ BOOKING_CONFIRM_GRACE_MINUTES`,
cancel the booking with `cancelled_by='system'`, append a
`'cancelled_timeout'` event, notify the user
(`notifier.send_booking_cancelled_to_user`), notify the group
(`notifier.notify_group_booking_cancelled`, which skips the send when the
fetched copy already has `group_notified` set), then mark the group-notified
flag unconditionally (the Python calls `mark_group_notified` regardless of
the notification's boolean result). -/
def expiredStep (now : Nat) (userOk groupOk : Nat → Bool) (db : DB)
    (b : Booking) : DB × List Effect :=
  if BOOKING_CONFIRM_GRACE_MINUTES ≤ (now : Int) - (b.startAbs : Int) then
    (mark_group_notified
      (add_booking_event (cancel_booking db b.id "system" timeoutReason now)
        b.id "cancelled_timeout" "system" none now)
      b.id,
     (if userOk b.id then [Effect.userCancelMsg b.id] else [])
       ++ (if b.group_notified == 0 && groupOk b.id
            then [Effect.groupCancelMsg b.id] else []))
  else (db, [])

/-- `booking_scheduler.check_expired_bookings`: fetch the pending bookings
with `remind_sent = 1` and run the timeout body over them. -/
def check_expired_bookings (now : Nat) (userOk groupOk : Nat → Bool)
    (db : DB) : DB × List Effect :=
  runSteps (expiredStep now userOk groupOk) (get_bookings_needing_cancellation db) db

/-- The loop body of `booking_scheduler.complete_finished_bookings`: if
`now ≥` the booking's end instant, set status `'completed'` and append a
`'completed'` event; no notification of any kind is sent. -/
def completeStep (now : Nat) (db : DB) (b : Booking) : DB × List Effect :=
  if b.endAbs ≤ now then
    (add_booking_event (complete_booking db b.id now) b.id "completed" "system"
      none now, [])
  else (db, [])

/-- `booking_scheduler.complete_finished_bookings`: fetch the confirmed
bookings and run the completion body over them. -/
def complete_finished_bookings (now : Nat) (db : DB) : DB × List Effect :=
  runSteps (completeStep now) (get_bookings_to_complete db) db

/-- One scheduler tick: `init_scheduler` registers the three passes to run
every minute; a tick runs each of them once against the current store. -/
def schedulerTick (now : Nat) (remindOk userOk groupOk : Nat → Bool)
    (db : DB) : DB × List Effect :=
  ((complete_finished_bookings now
      (check_expired_bookings now userOk groupOk
        (check_upcoming_bookings now remindOk db).1).1).1,
   (check_upcoming_bookings now remindOk db).2
     ++ (check_expired_bookings now userOk groupOk
          (check_upcoming_bookings now remindOk db).1).2
     ++ (complete_finished_bookings now
          (check_expired_bookings now userOk groupOk
            (check_upcoming_bookings now remindOk db).1).1).2)

/-- Iterated scheduler ticks, each with its clock value and transport
outcomes. -/
def runTicks : List (Nat × (Nat → Bool) × (Nat → Bool) × (Nat → Bool)) → DB → DB
  | [], db => db
  | (now, ro, uo, go) :: rest, db =>
    runTicks rest (schedulerTick now ro uo go db).1

/-!
## The confirmation callback (`booking_handler.confirm_booking_callback`)
-/

/-- The reply the callback edits into the chat. -/
inductive Reply where
  | notFound
  | alreadyStatus (label : String)
  | confirmedOk
deriving DecidableEq, Repr

/-- The `status_text` mapping of `booking_handler.confirm_booking_callback`
(`dict.get` with default `'неактивна'`). -/
def statusText (s : String) : String :=
  if s = "confirmed" then "уже подтверждена"
  else if s = "cancelled" then "отменена"
  else if s = "cancelled_by_user" then "отменена"
  else if s = "cancelled_by_admin" then "отменена администратором"
  else if s = "completed" then "завершена"
  else "неактивна"

/-- `booking_handler.confirm_booking_callback`: fetch the booking; if absent
report not-found; if its status is not `'pending'` report the current status
and perform no write; otherwise confirm it (status update plus `'confirmed'`
event, two separate commits). -/
def confirm_booking_callback (db : DB) (bid actor now : Nat) : DB × Reply :=
  match findB db bid with
  | none => (db, Reply.notFound)
  | some b =>
    if b.status ≠ "pending" then
      (db, Reply.alreadyStatus (statusText b.status))
    else
      (add_booking_event (confirm_booking db bid now) bid "confirmed" "user"
        (some actor) now,
       Reply.confirmedOk)

/-!
## Transition operations as lists of commits (for the atomicity claim)

A logical operation is a list of commits; the store states visible to a
concurrent reader are the states after each prefix of the commits.
-/

/-- The states a concurrent reader can observe while an operation runs:
the initial state and the state after each commit. -/
def observableStates (commits : List (DB → DB)) (db : DB) : List DB :=
  commits.scanl (fun d c => c d) db

/-- Apply all commits of an operation. -/
def applyAll (commits : List (DB → DB)) (db : DB) : DB :=
  commits.foldl (fun d c => c d) db

/-- The creation operation (`database.create_booking`): a single commit
writing the row and its `'created'` event together. -/
def createFlow (tg : Nat) (tgNick mbNick : String) (date s e durMin now : Nat) :
    List (DB → DB) :=
  [fun db => (create_booking db tg tgNick mbNick date s e durMin now).1]

/-- The confirmation operation as performed by
`booking_handler.confirm_booking_callback`: one commit for the status
update (`database.confirm_booking`), a second commit for the event
(`database.add_booking_event`). -/
def confirmFlow (bid actor now : Nat) : List (DB → DB) :=
  [fun db => confirm_booking db bid now,
   fun db => add_booking_event db bid "confirmed" "user" (some actor) now]

/-- The user cancellation operation as performed by
`handlers.cancelbooking_command`: cancel commit, then event commit. -/
def cancelUserFlow (bid actor now : Nat) : List (DB → DB) :=
  [fun db => cancel_booking db bid "user" "Отменена пользователем" now,
   fun db => add_booking_event db bid "cancelled_user" "user" (some actor) now]

/-- The completion operation as performed by
`booking_scheduler.complete_finished_bookings`: complete commit, then event
commit. -/
def completeFlow (bid now : Nat) : List (DB → DB) :=
  [fun db => complete_booking db bid now,
   fun db => add_booking_event db bid "completed" "system" none now]

/-!
## Sample data used by concrete witnesses
-/

/-- A booking row with the given id, owner, date, interval, status and
flags; the remaining columns take fixed sample values. -/
def mkBooking (i tg date s e : Nat) (st : String) (rs gn : Nat) : Booking :=
  { id := i, tg_id := tg, tg_nickname := "tg", mangabuff_nick := "mb",
    date := date, start_time := s, end_time := e, duration_min := e - s,
    status := st, created_at := 0, confirmed_at := none, cancelled_at := none,
    completed_at := none, cancelled_by := none, cancel_reason := none,
    remind_sent := rs, group_notified := gn }

/-!
## C5 — the validation gate
-/

/-- The store conflict query answers positively exactly when some active
booking of the same date overlaps the candidate interval and is not the
(truthy) excluded id. -/
lemma check_conflict_iff (table : List Booking) (date s e : Nat)
    (excl : Option Nat) :
    check_booking_conflict table date s e excl = true ↔
      ∃ b ∈ table, b.date = date
        ∧ (b.status = "pending" ∨ b.status = "confirmed")
        ∧ b.start_time < e ∧ s < b.end_time
        ∧ ∀ i, excl = some i → i ≠ 0 → b.id ≠ i := by
  have hlen : ∀ p : Booking → Bool,
      (decide (0 < (table.filter p).length) = true) ↔ ∃ b ∈ table, p b = true := by
    intro p
    rw [decide_eq_true_eq, ← List.countP_eq_length_filter p, List.countP_pos_iff]
  unfold check_booking_conflict
  cases excl with
  | none =>
    rw [excludeFilter, hlen]
    refine exists_congr fun b => and_congr_right fun _ => ?_
    simp only [Bool.and_eq_true, Bool.or_eq_true, beq_iff_eq, Bool.not_eq_true',
      Bool.or_eq_false_iff, decide_eq_true_eq, decide_eq_false_iff_not, Nat.not_le]
    constructor
    · rintro ⟨⟨hd, hst⟩, hov1, hov2⟩
      exact ⟨hd, hst, hov2, hov1, by intro i h; cases h⟩
    · rintro ⟨hd, hst, hov2, hov1, _⟩
      exact ⟨⟨hd, hst⟩, hov1, hov2⟩
  | some i =>
    by_cases hi : i = 0
    · subst hi
      rw [excludeFilter, if_neg (by simp : ¬ (0 : Nat) ≠ 0), hlen]
      refine exists_congr fun b => and_congr_right fun _ => ?_
      simp only [Bool.and_eq_true, Bool.or_eq_true, beq_iff_eq, Bool.not_eq_true',
        Bool.or_eq_false_iff, decide_eq_true_eq, decide_eq_false_iff_not, Nat.not_le]
      constructor
      · rintro ⟨⟨hd, hst⟩, hov1, hov2⟩
        refine ⟨hd, hst, hov2, hov1, ?_⟩
        intro j hj hj0
        cases hj
        exact absurd rfl hj0
      · rintro ⟨hd, hst, hov2, hov1, _⟩
        exact ⟨⟨hd, hst⟩, hov1, hov2⟩
    · rw [excludeFilter, if_pos hi, List.filter_filter, hlen]
      refine exists_congr fun b => and_congr_right fun _ => ?_
      simp only [Bool.and_eq_true, Bool.or_eq_true, beq_iff_eq, Bool.not_eq_true',
        Bool.or_eq_false_iff, decide_eq_true_eq, decide_eq_false_iff_not, Nat.not_le,
        bne_iff_ne, ne_eq]
      constructor
      · rintro ⟨hne, ⟨hd, hst⟩, hov1, hov2⟩
        refine ⟨hd, hst, hov2, hov1, ?_⟩
        intro j hj _
        cases hj
        exact hne
      · rintro ⟨hd, hst, hov2, hov1, hx⟩
        exact ⟨hx i rfl hi, ⟨hd, hst⟩, hov1, hov2⟩

/-- C5: `validate_booking_slot` checks in order, short-circuiting on the
first failure with a human-readable reason: it rejects `end ≤ start`, then
rejects durations over the maximum, then rejects any interval overlapping an
active (pending or confirmed) booking on the same date unless the exclude-id
matches it; otherwise it returns ok.  The last conjunct characterises the
authoritative store conflict check. -/
theorem C5_validate_slot_spec (table : List Booking) (date s e : Nat)
    (excl : Option Nat) :
    (e ≤ s → validate_booking_slot table date s e excl
        = (false, "Время окончания должно быть позже времени начала"))
    ∧ (s < e → BOOKING_MAX_HOURS * 60 < e - s →
        validate_booking_slot table date s e excl
        = (false, "Максимальная длительность брони: 2 ч"))
    ∧ (s < e → e - s ≤ BOOKING_MAX_HOURS * 60 →
        check_booking_conflict table date s e excl = true →
        validate_booking_slot table date s e excl = (false, "Этот слот уже занят"))
    ∧ (s < e → e - s ≤ BOOKING_MAX_HOURS * 60 →
        check_booking_conflict table date s e excl = false →
        validate_booking_slot table date s e excl = (true, ""))
    ∧ (check_booking_conflict table date s e excl = true ↔
        ∃ b ∈ table, b.date = date
          ∧ (b.status = "pending" ∨ b.status = "confirmed")
          ∧ b.start_time < e ∧ s < b.end_time
          ∧ ∀ i, excl = some i → i ≠ 0 → b.id ≠ i) := by
  refine ⟨?_, ?_, ?_, ?_, ?_⟩
  · intro h
    unfold validate_booking_slot
    rw [if_pos h]
  · intro h1 h2
    unfold validate_booking_slot
    rw [if_neg (by omega), if_pos h2]
  · intro h1 h2 hc
    unfold validate_booking_slot
    rw [if_neg (by omega), if_neg (by omega), if_pos hc]
  · intro h1 h2 hc
    unfold validate_booking_slot
    rw [if_neg (by omega), if_neg (by omega), if_neg (by simp [hc])]
  · exact check_conflict_iff table date s e excl

/-- C5 witness: a concrete overlapping active booking is rejected with the
"slot already taken" reason. -/
theorem C5_witness :
    validate_booking_slot [mkBooking 7 11 0 630 700 "pending" 0 0] 0 600 660 none
      = (false, "Этот слот уже занят") :=
  (C5_validate_slot_spec [mkBooking 7 11 0 630 700 "pending" 0 0] 0 600 660 none).2.2.1
    (by decide) (by decide) (by decide)

/-!
## C4 — end-slot enumeration
-/

/-- When no candidate crosses midnight, the end-slot loop is a `takeWhile`
of the contiguous candidate times: it stops at, and does not pass, the
first candidate conflicting with a busy booking. -/
lemma end_slots_go_eq_takeWhile (date startTime : Nat) (busy : List Booking)
    (maxEndAbs : Nat) :
    ∀ ds : List Nat,
      (∀ d ∈ ds, absMin date startTime + d ≤ maxEndAbs) →
      (∀ d ∈ ds, startTime + d < 1440) →
      end_slots_go (absMin date startTime) maxEndAbs startTime busy ds
        = (ds.map (fun d => startTime + d)).takeWhile
            (fun c => !(has_conflict_with_bookings startTime c busy)) := by
  intro ds
  induction ds with
  | nil => intro _ _; rfl
  | cons d rest ih =>
    intro h1 h2
    have hd1 : absMin date startTime + d ≤ maxEndAbs := h1 d (by simp)
    have hd2 : startTime + d < 1440 := h2 d (by simp)
    have hmod : (absMin date startTime + d) % 1440 = startTime + d := by
      unfold absMin
      omega
    unfold end_slots_go
    rw [if_neg (by omega), hmod, List.map_cons, List.takeWhile_cons]
    by_cases hc : has_conflict_with_bookings startTime (startTime + d) busy
    · rw [if_pos hc, hc]
      simp
    · rw [if_neg hc, Bool.not_eq_true] at *
      rw [hc]
      simp only [Bool.not_false, if_pos]
      rw [ih (fun x hx => h1 x (by simp [hx])) (fun x hx => h2 x (by simp [hx]))]

/-- C4 (amended): when `start + maxDuration` stays within the civil day,
every returned end slot lies strictly after the start, at most
`maxDuration` later, does not overlap any busy booking, and the returned
sequence is exactly the contiguous 30-minute candidates cut at (and not
past) the first conflicting candidate. -/
theorem C4_end_slots_amended (date startTime : Nat) (busy : List Booking)
    (hwrap : startTime + BOOKING_MAX_HOURS * 60 < 1440) :
    (∀ x ∈ get_available_end_slots date startTime busy,
        startTime < x ∧ x ≤ startTime + BOOKING_MAX_HOURS * 60
          ∧ has_conflict_with_bookings startTime x busy = false)
    ∧ get_available_end_slots date startTime busy
        = ((pyRange 30 (BOOKING_MAX_HOURS * 60 + 1) 30).map
            (fun d => startTime + d)).takeWhile
              (fun c => !(has_conflict_with_bookings startTime c busy)) := by
  have hrange : pyRange 30 (BOOKING_MAX_HOURS * 60 + 1) 30 = [30, 60, 90, 120] := by
    decide
  have hds1 : ∀ d ∈ pyRange 30 (BOOKING_MAX_HOURS * 60 + 1) 30,
      absMin date startTime + d ≤ absMin date startTime + BOOKING_MAX_HOURS * 60 := by
    rw [hrange]
    intro d hd
    unfold BOOKING_MAX_HOURS
    fin_cases hd <;> omega
  have hds2 : ∀ d ∈ pyRange 30 (BOOKING_MAX_HOURS * 60 + 1) 30,
      startTime + d < 1440 := by
    rw [hrange]
    unfold BOOKING_MAX_HOURS at hwrap
    intro d hd
    fin_cases hd <;> omega
  have heq : get_available_end_slots date startTime busy
      = ((pyRange 30 (BOOKING_MAX_HOURS * 60 + 1) 30).map
          (fun d => startTime + d)).takeWhile
            (fun c => !(has_conflict_with_bookings startTime c busy)) := by
    unfold get_available_end_slots
    exact end_slots_go_eq_takeWhile date startTime busy _ _ hds1 hds2
  refine ⟨?_, heq⟩
  intro x hx
  rw [heq] at hx
  have hpred := List.mem_takeWhile_imp hx
  have hmem : x ∈ (pyRange 30 (BOOKING_MAX_HOURS * 60 + 1) 30).map
      (fun d => startTime + d) :=
    (List.takeWhile_prefix _).subset hx
  rw [List.mem_map] at hmem
  obtain ⟨d, hd, hxd⟩ := hmem
  rw [hrange] at hd
  have hbound : startTime < x ∧ x ≤ startTime + BOOKING_MAX_HOURS * 60 := by
    unfold BOOKING_MAX_HOURS
    fin_cases hd <;> omega
  refine ⟨hbound.1, hbound.2, ?_⟩
  rw [Bool.not_eq_true'] at hpred
  exact hpred

/-- C4 counterexample: for start time 23:30 (minute 1410) on a free day the
first returned end slot is minute 0 (midnight, formatted `"00:00"` by the
source), which is not after the start time — the claim fails as stated
when the window crosses midnight. -/
theorem C4_counterexample :
    0 ∈ get_available_end_slots 0 1410 [] ∧ ¬ (1410 < 0) := by
  constructor
  · decide
  · omega

/-- C4 witness: concrete run of the amended theorem at start 10:00 with one
busy booking 11:00–12:00. -/
theorem C4_witness :
    600 < 630 ∧ 630 ≤ 600 + BOOKING_MAX_HOURS * 60
      ∧ has_conflict_with_bookings 600 630 [mkBooking 3 12 0 660 720 "confirmed" 0 0]
          = false :=
  (C4_end_slots_amended 0 600 [mkBooking 3 12 0 660 720 "confirmed" 0 0]
    (by decide)).1 630 (by decide)

/-!
## C6 — start-slot enumeration
-/

/-- C6: the offered start slots are strictly ascending half-hour
boundaries inside the day; when the selected date is today every offered
boundary is strictly after the current time (whose time of day is
`nowAbs % 1440`); no offered boundary equals the start time of a busy
booking; and when the next half-hour boundary exists and is not busy it is
exactly the first offered slot. -/
theorem C6_start_slots_spec (selectedDate nowAbs : Nat) (busy : List Booking) :
    List.Pairwise (fun a b => a < b)
        (get_available_start_slots selectedDate nowAbs busy)
    ∧ (∀ m ∈ get_available_start_slots selectedDate nowAbs busy,
        30 ∣ m ∧ m < 1440)
    ∧ (selectedDate = nowAbs / 1440 →
        ∀ m ∈ get_available_start_slots selectedDate nowAbs busy,
          nowAbs % 1440 < m)
    ∧ (∀ m ∈ get_available_start_slots selectedDate nowAbs busy,
        ∀ b ∈ busy, b.start_time ≠ m)
    ∧ (selectedDate = nowAbs / 1440 →
        get_next_half_hour (nowAbs % 1440) < 1440 →
        (∀ b ∈ busy, b.start_time ≠ get_next_half_hour (nowAbs % 1440)) →
        (get_available_start_slots selectedDate nowAbs busy).head?
          = some (get_next_half_hour (nowAbs % 1440))) := by
  have hmem : ∀ m ∈ get_available_start_slots selectedDate nowAbs busy,
      (∃ i, m = (if selectedDate = nowAbs / 1440
          then get_next_half_hour (nowAbs % 1440) else 0) + 30 * i
        ∧ i < (1440 - (if selectedDate = nowAbs / 1440
            then get_next_half_hour (nowAbs % 1440) else 0) + 29) / 30)
      ∧ (busy.any (fun b => b.start_time == m)) = false := by
    intro m hm
    unfold get_available_start_slots pyRange at hm
    rw [List.mem_filter] at hm
    obtain ⟨hr, hp⟩ := hm
    rw [List.mem_range'] at hr
    obtain ⟨i, hi, hmi⟩ := hr
    refine ⟨⟨i, hmi, ?_⟩, by simpa using hp⟩
    simpa using hi
  refine ⟨?_, ?_, ?_, ?_, ?_⟩
  · exact List.Pairwise.sublist (List.filter_sublist _)
      (List.pairwise_lt_range' _ _ 30 (by norm_num))
  · intro m hm
    obtain ⟨⟨i, hmi, hi⟩, _⟩ := hmem m hm
    by_cases ht : selectedDate = nowAbs / 1440
    · rw [if_pos ht] at hmi hi
      unfold get_next_half_hour at hmi hi
      constructor
      · omega
      · omega
    · rw [if_neg ht] at hmi hi
      constructor
      · omega
      · omega
  · intro ht m hm
    obtain ⟨⟨i, hmi, hi⟩, _⟩ := hmem m hm
    rw [if_pos ht] at hmi
    unfold get_next_half_hour at hmi
    omega
  · intro m hm b hb
    obtain ⟨_, hany⟩ := hmem m hm
    rw [List.any_eq_false] at hany
    have := hany b hb
    simpa using this
  · intro ht hlt hfree
    unfold get_available_start_slots pyRange
    rw [if_pos ht]
    obtain ⟨k, hk⟩ : ∃ k,
        (1440 - get_next_half_hour (nowAbs % 1440) + 30 - 1) / 30 = k + 1 := by
      refine ⟨(1440 - get_next_half_hour (nowAbs % 1440) + 30 - 1) / 30 - 1, ?_⟩
      omega
    rw [show (24 * 60 : Nat) = 1440 from rfl, hk, List.range'_succ, List.filter_cons,
      if_pos (by
        rw [Bool.not_eq_true', List.any_eq_false]
        intro b hb
        simpa using hfree b hb)]
    exact List.head?_cons

/-- C6 witness: at 14:24 today with one busy booking starting at 15:00, the
slots are after minute 864 and skip 900. -/
theorem C6_witness :
    (∀ m ∈ get_available_start_slots 10 (1440 * 10 + 864)
        [mkBooking 4 13 10 900 960 "pending" 0 0], (1440 * 10 + 864) % 1440 < m)
    ∧ (∀ m ∈ get_available_start_slots 10 (1440 * 10 + 864)
        [mkBooking 4 13 10 900 960 "pending" 0 0],
        ∀ b ∈ [mkBooking 4 13 10 900 960 "pending" 0 0], b.start_time ≠ m) :=
  ⟨(C6_start_slots_spec 10 (1440 * 10 + 864)
      [mkBooking 4 13 10 900 960 "pending" 0 0]).2.2.1 (by decide),
   (C6_start_slots_spec 10 (1440 * 10 + 864)
      [mkBooking 4 13 10 900 960 "pending" 0 0]).2.2.2.1⟩

/-!
## Generic lemmas about row updates, event appends and scheduler loops
-/

/-- `updRow` seen through `find?`: updating id `i` changes the looked-up
row for `i` (by `g`) and no other row, provided `g` preserves ids. -/
lemma find_updRow (g : Booking → Booking) (hg : ∀ b, (g b).id = b.id)
    (i j : Nat) (l : List Booking) :
    (updRow g i l).find? (fun b => b.id == j)
      = if j = i then (l.find? (fun b => b.id == j)).map g
        else l.find? (fun b => b.id == j) := by
  induction l with
  | nil =>
    by_cases h : j = i <;> simp [updRow, h]
  | cons b t ih =>
    by_cases hbi : b.id = i
    · by_cases hji : j = i
      · rw [if_pos hji]
        have h1 : ((if b.id = i then g b else b).id == j) = true := by
          rw [if_pos hbi]
          simp [hg b, hbi, hji]
        have h2 : (b.id == j) = true := by simp [hbi, hji]
        rw [updRow, List.map_cons, @List.find?_cons_of_pos _ (fun (b : Booking) => b.id == j) _ _ h1,
          @List.find?_cons_of_pos _ (fun (b : Booking) => b.id == j) b t h2, if_pos hbi]
        rfl
      · have h1 : ((if b.id = i then g b else b).id == j) = false := by
          rw [if_pos hbi]
          simp [hg b, hbi]
          omega
        have h2 : (b.id == j) = false := by
          simp [hbi]
          omega
        rw [updRow, List.map_cons, @List.find?_cons_of_neg _ (fun (b : Booking) => b.id == j) _ _ (by simp [h1]),
          @List.find?_cons_of_neg _ (fun (b : Booking) => b.id == j) _ _ (by simp [h2]), if_neg hji]
        have := ih
        rw [if_neg hji] at this
        exact this
    · by_cases hbj : b.id = j
      · have hji : ¬ j = i := by
          intro h
          exact hbi (by omega)
        have h1 : ((if b.id = i then g b else b).id == j) = true := by
          rw [if_neg hbi]
          simp [hbj]
        rw [updRow, List.map_cons, @List.find?_cons_of_pos _ (fun (b : Booking) => b.id == j) _ _ h1,
          @List.find?_cons_of_pos _ (fun (b : Booking) => b.id == j) b t (by simp [hbj]),
          if_neg hji, if_neg hbi]
      · have h1 : ((if b.id = i then g b else b).id == j) = false := by
          by_cases hh : b.id = i
          · rw [if_pos hh]
            simp [hg b]
            omega
          · rw [if_neg hh]
            simp
            omega
        rw [updRow, List.map_cons, @List.find?_cons_of_neg _ (fun (b : Booking) => b.id == j) _ _ (by simp [h1]),
          @List.find?_cons_of_neg _ (fun (b : Booking) => b.id == j) _ _ (by simp; omega)]
        by_cases hji : j = i
        · rw [if_pos hji]
          have := ih
          rw [if_pos hji] at this
          exact this
        · rw [if_neg hji]
          have := ih
          rw [if_neg hji] at this
          exact this

/-- `updRow` with an id-preserving function does not change the id column. -/
lemma map_id_updRow (g : Booking → Booking) (hg : ∀ b, (g b).id = b.id)
    (i : Nat) (l : List Booking) :
    (updRow g i l).map Booking.id = l.map Booking.id := by
  induction l with
  | nil => rfl
  | cons b t ih =>
    rw [updRow, List.map_cons, List.map_cons, List.map_cons]
    rw [updRow] at ih
    rw [ih]
    by_cases h : b.id = i
    · rw [if_pos h, hg b]
    · rw [if_neg h]

/-- Appending an event changes no booking row. -/
lemma findB_add_event (db : DB) (bid : Nat) (ty al : String)
    (at_ : Option Nat) (now j : Nat) :
    findB (add_booking_event db bid ty al at_ now) j = findB db j := rfl

/-- Appending an event adds one to the matching count and nothing to any
other count. -/
lemma eventCount_add_event (db : DB) (bid : Nat) (ty al : String)
    (at_ : Option Nat) (now j : Nat) (ty' : String) :
    eventCount (add_booking_event db bid ty al at_ now) j ty'
      = eventCount db j ty' + (if bid = j ∧ ty = ty' then 1 else 0) := by
  unfold eventCount add_booking_event
  rw [List.filter_append, List.length_append]
  by_cases h : bid = j ∧ ty = ty'
  · rw [if_pos h]
    simp [h.1, h.2]
  · rw [if_neg h]
    rcases not_and_or.mp h with h1 | h1 <;> simp [h1]

/-- Scheduler loops over a list of fetched bookings: running the tail after
a prefix. -/
lemma runSteps_append (step : DB → Booking → DB × List Effect)
    (l1 l2 : List Booking) (db : DB) :
    runSteps step (l1 ++ l2) db
      = ((runSteps step l2 (runSteps step l1 db).1).1,
         (runSteps step l1 db).2 ++ (runSteps step l2 (runSteps step l1 db).1).2) := by
  induction l1 generalizing db with
  | nil => simp [runSteps]
  | cons b t ih =>
    show runSteps step (b :: (t ++ l2)) db = _
    simp only [runSteps]
    rw [ih]
    simp [List.append_assoc]

/-- A loop body that never touches rows of other ids. -/
def StepFrame (step : DB → Booking → DB × List Effect) : Prop :=
  ∀ db b j, j ≠ b.id → findB (step db b).1 j = findB db j

/-- If no fetched booking has id `j`, the whole loop leaves row `j`
untouched. -/
lemma runSteps_frame (step : DB → Booking → DB × List Effect)
    (hf : StepFrame step) (l : List Booking) (db : DB) (j : Nat)
    (hl : ∀ b ∈ l, j ≠ b.id) :
    findB (runSteps step l db).1 j = findB db j := by
  induction l generalizing db with
  | nil => rfl
  | cons b t ih =>
    simp only [runSteps]
    rw [ih _ (fun x hx => hl x (by simp [hx])), hf db b j (hl b (by simp))]

/-- A loop whose body emits no message emits no message. -/
lemma runSteps_silent (step : DB → Booking → DB × List Effect)
    (hs : ∀ db b, (step db b).2 = []) (l : List Booking) (db : DB) :
    (runSteps step l db).2 = [] := by
  induction l generalizing db with
  | nil => rfl
  | cons b t ih =>
    simp only [runSteps]
    rw [hs db b, ih]
    rfl

/-- In a list whose ids are distinct, a member is the row found by its id. -/
lemma find_eq_of_mem_nodup (l : List Booking)
    (hnd : (l.map Booking.id).Nodup)
    (b : Booking) (hb : b ∈ l) :
    l.find? (fun x => x.id == b.id) = some b := by
  induction l with
  | nil => cases hb
  | cons x t ih =>
    rw [List.map_cons, List.nodup_cons] at hnd
    rcases List.mem_cons.mp hb with h | h
    · subst h
      exact @List.find?_cons_of_pos _ (fun (x : Booking) => x.id == b.id) _ _ (by simp)
    · have hxb : ¬ (x.id == b.id) = true := by
        simp only [beq_iff_eq]
        intro hx
        exact hnd.1 (hx ▸ List.mem_map_of_mem Booking.id h)
      rw [@List.find?_cons_of_neg _ (fun (x : Booking) => x.id == b.id) _ _ hxb]
      exact ih hnd.2 h

/-- In a table whose ids are distinct, a member is exactly the row found by
its id. -/
lemma findB_of_mem_nodup (db : DB)
    (hnd : (db.bookings.map Booking.id).Nodup)
    (b : Booking) (hb : b ∈ db.bookings) :
    findB db b.id = some b :=
  find_eq_of_mem_nodup db.bookings hnd b hb

/-!
## Lookup behaviour of the individual store operations
-/

/-- `confirm_booking` through `findB`. -/
lemma findB_confirm_booking (db : DB) (bid now j : Nat) :
    findB (confirm_booking db bid now) j
      = if j = bid then (findB db j).map
          (fun b => { b with status := "confirmed", confirmed_at := some now })
        else findB db j :=
  find_updRow (fun b => { b with status := "confirmed", confirmed_at := some now })
    (fun _ => rfl) bid j db.bookings

/-- `cancel_booking` through `findB`. -/
lemma findB_cancel_booking (db : DB) (bid : Nat) (who reason : String)
    (now j : Nat) :
    findB (cancel_booking db bid who reason now) j
      = if j = bid then (findB db j).map
          (fun b => { b with status := cancelStatusOf who,
                             cancelled_at := some now,
                             cancelled_by := some who,
                             cancel_reason := some reason })
        else findB db j :=
  find_updRow
    (fun b =>
      { b with
        status := cancelStatusOf who,
        cancelled_at := some now,
        cancelled_by := some who,
        cancel_reason := some reason })
    (fun _ => rfl) bid j db.bookings

/-- `complete_booking` through `findB`. -/
lemma findB_complete_booking (db : DB) (bid now j : Nat) :
    findB (complete_booking db bid now) j
      = if j = bid then (findB db j).map
          (fun b => { b with status := "completed", completed_at := some now })
        else findB db j :=
  find_updRow (fun b => { b with status := "completed", completed_at := some now })
    (fun _ => rfl) bid j db.bookings

/-- `mark_remind_sent` through `findB`. -/
lemma findB_mark_remind_sent (db : DB) (bid j : Nat) :
    findB (mark_remind_sent db bid) j
      = if j = bid then (findB db j).map (fun b => { b with remind_sent := 1 })
        else findB db j :=
  find_updRow (fun b => { b with remind_sent := 1 }) (fun _ => rfl) bid j db.bookings

/-- `mark_group_notified` through `findB`. -/
lemma findB_mark_group_notified (db : DB) (bid j : Nat) :
    findB (mark_group_notified db bid) j
      = if j = bid then (findB db j).map (fun b => { b with group_notified := 1 })
        else findB db j :=
  find_updRow (fun b => { b with group_notified := 1 }) (fun _ => rfl) bid j db.bookings

/-- `confirm_booking` does not touch the event log. -/
lemma eventCount_confirm_booking (db : DB) (bid now j : Nat) (ty : String) :
    eventCount (confirm_booking db bid now) j ty = eventCount db j ty := rfl

/-- `cancel_booking` does not touch the event log. -/
lemma eventCount_cancel_booking (db : DB) (bid : Nat) (who reason : String)
    (now j : Nat) (ty : String) :
    eventCount (cancel_booking db bid who reason now) j ty = eventCount db j ty := rfl

/-- `complete_booking` does not touch the event log. -/
lemma eventCount_complete_booking (db : DB) (bid now j : Nat) (ty : String) :
    eventCount (complete_booking db bid now) j ty = eventCount db j ty := rfl

/-- `mark_remind_sent` does not touch the event log. -/
lemma eventCount_mark_remind_sent (db : DB) (bid j : Nat) (ty : String) :
    eventCount (mark_remind_sent db bid) j ty = eventCount db j ty := rfl

/-- `mark_group_notified` does not touch the event log. -/
lemma eventCount_mark_group_notified (db : DB) (bid j : Nat) (ty : String) :
    eventCount (mark_group_notified db bid) j ty = eventCount db j ty := rfl

/-!
## Frame properties of the three loop bodies
-/

/-- The reminder body never touches another booking's row. -/
lemma remindStep_frame (now : Nat) (ok : Nat → Bool) :
    StepFrame (remindStep now ok) := by
  intro db b j hj
  unfold remindStep
  split
  · split
    · rw [findB_add_event, findB_mark_remind_sent, if_neg hj]
    · rfl
  · rfl

/-- The timeout body never touches another booking's row. -/
lemma expiredStep_frame (now : Nat) (userOk groupOk : Nat → Bool) :
    StepFrame (expiredStep now userOk groupOk) := by
  intro db b j hj
  unfold expiredStep
  split
  · rw [findB_mark_group_notified, if_neg hj, findB_add_event,
      findB_cancel_booking, if_neg hj]
  · rfl

/-- The completion body never touches another booking's row. -/
lemma completeStep_frame (now : Nat) : StepFrame (completeStep now) := by
  intro db b j hj
  unfold completeStep
  split
  · rw [findB_add_event, findB_complete_booking, if_neg hj]
  · rfl

/-- Splitting a duplicate-free fetched list at a member: every other element
has a different id. -/
lemma split_ids_ne (l1 l2 : List Booking) (b : Booking)
    (hnd : ((l1 ++ b :: l2).map Booking.id).Nodup) :
    (∀ x ∈ l1, b.id ≠ x.id) ∧ (∀ x ∈ l2, b.id ≠ x.id) := by
  rw [List.map_append, List.map_cons, List.nodup_append] at hnd
  obtain ⟨_, hcons, hdisj⟩ := hnd
  constructor
  · intro x hx
    intro hxe
    exact hdisj (List.mem_map_of_mem Booking.id hx) (by simp [hxe])
  · intro x hx
    intro hxe
    rw [List.nodup_cons] at hcons
    exact hcons.1 (hxe ▸ List.mem_map_of_mem Booking.id hx)

/-- Running a frame-respecting loop over a duplicate-free fetched list that
contains `b`: row `b.id` evolves exactly as the body run once on `b` from
some store that agrees with the initial one on row `b.id`, and every message
the body emits there appears among the messages of the whole loop. -/
lemma runSteps_at_mem (step : DB → Booking → DB × List Effect)
    (hf : StepFrame step) (db : DB) (l : List Booking) (b : Booking)
    (hbl : b ∈ l) (hnd : (l.map Booking.id).Nodup) :
    ∃ db1 : DB, findB db1 b.id = findB db b.id
      ∧ findB (runSteps step l db).1 b.id = findB (step db1 b).1 b.id
      ∧ (step db1 b).2 ⊆ (runSteps step l db).2 := by
  obtain ⟨l1, l2, rfl⟩ := List.append_of_mem hbl
  obtain ⟨hne1, hne2⟩ := split_ids_ne l1 l2 b hnd
  refine ⟨(runSteps step l1 db).1, ?_, ?_, ?_⟩
  · exact runSteps_frame step hf l1 db b.id (fun x hx => hne1 x hx)
  · rw [runSteps_append]
    show findB (runSteps step (b :: l2) (runSteps step l1 db).1).1 b.id = _
    simp only [runSteps]
    exact runSteps_frame step hf l2 _ b.id (fun x hx => hne2 x hx)
  · rw [runSteps_append]
    intro x hx
    show x ∈ _ ++ (runSteps step (b :: l2) (runSteps step l1 db).1).2
    simp only [runSteps]
    simp only [List.mem_append]
    right
    left
    exact hx

/-- A loop body that appends events only for its own booking. -/
def StepEvents (step : DB → Booking → DB × List Effect) : Prop :=
  ∀ db b j ty, j ≠ b.id → eventCount (step db b).1 j ty = eventCount db j ty

/-- If no fetched booking has id `j`, the whole loop appends no event for
booking `j`. -/
lemma runSteps_events_frame (step : DB → Booking → DB × List Effect)
    (he : StepEvents step) (l : List Booking) (db : DB) (j : Nat)
    (ty : String) (hl : ∀ b ∈ l, j ≠ b.id) :
    eventCount (runSteps step l db).1 j ty = eventCount db j ty := by
  induction l generalizing db with
  | nil => rfl
  | cons b t ih =>
    simp only [runSteps]
    rw [ih _ (fun x hx => hl x (by simp [hx])), he db b j ty (hl b (by simp))]

/-- `runSteps_at_mem` refined with event accounting: the event count of
booking `b.id` across the whole loop equals its count across the single
body run at `b`. -/
lemma runSteps_at_mem_events (step : DB → Booking → DB × List Effect)
    (hf : StepFrame step) (he : StepEvents step) (db : DB)
    (l : List Booking) (b : Booking) (hbl : b ∈ l)
    (hnd : (l.map Booking.id).Nodup) (ty : String) :
    ∃ db1 : DB, findB db1 b.id = findB db b.id
      ∧ eventCount db1 b.id ty = eventCount db b.id ty
      ∧ findB (runSteps step l db).1 b.id = findB (step db1 b).1 b.id
      ∧ eventCount (runSteps step l db).1 b.id ty
          = eventCount (step db1 b).1 b.id ty
      ∧ (step db1 b).2 ⊆ (runSteps step l db).2 := by
  obtain ⟨l1, l2, rfl⟩ := List.append_of_mem hbl
  obtain ⟨hne1, hne2⟩ := split_ids_ne l1 l2 b hnd
  refine ⟨(runSteps step l1 db).1, ?_, ?_, ?_, ?_, ?_⟩
  · exact runSteps_frame step hf l1 db b.id (fun x hx => hne1 x hx)
  · exact runSteps_events_frame step he l1 db b.id ty (fun x hx => hne1 x hx)
  · rw [runSteps_append]
    show findB (runSteps step (b :: l2) (runSteps step l1 db).1).1 b.id = _
    simp only [runSteps]
    exact runSteps_frame step hf l2 _ b.id (fun x hx => hne2 x hx)
  · rw [runSteps_append]
    show eventCount (runSteps step (b :: l2) (runSteps step l1 db).1).1 b.id ty = _
    simp only [runSteps]
    exact runSteps_events_frame step he l2 _ b.id ty (fun x hx => hne2 x hx)
  · rw [runSteps_append]
    intro x hx
    show x ∈ _ ++ (runSteps step (b :: l2) (runSteps step l1 db).1).2
    simp only [runSteps]
    simp only [List.mem_append]
    right
    left
    exact hx

/-- The timeout body appends events only for its own booking. -/
lemma expiredStep_events (now : Nat) (userOk groupOk : Nat → Bool) :
    StepEvents (expiredStep now userOk groupOk) := by
  intro db b j ty hj
  unfold expiredStep
  split
  · rw [eventCount_mark_group_notified, eventCount_add_event,
      eventCount_cancel_booking, if_neg (by intro h; exact hj h.1.symm)]
    omega
  · rfl

/-- The reminder body appends events only for its own booking. -/
lemma remindStep_events (now : Nat) (ok : Nat → Bool) :
    StepEvents (remindStep now ok) := by
  intro db b j ty hj
  unfold remindStep
  split
  · split
    · rw [eventCount_add_event, eventCount_mark_remind_sent,
        if_neg (by intro h; exact hj h.1.symm)]
      omega
    · rfl
  · rfl

/-- The completion body appends events only for its own booking. -/
lemma completeStep_events (now : Nat) : StepEvents (completeStep now) := by
  intro db b j ty hj
  unfold completeStep
  split
  · rw [eventCount_add_event, eventCount_complete_booking,
      if_neg (by intro h; exact hj h.1.symm)]
    omega
  · rfl

/-- In a duplicate-free table two members with the same id coincide. -/
lemma mem_id_inj (db : DB) (hnd : (db.bookings.map Booking.id).Nodup)
    (x y : Booking) (hx : x ∈ db.bookings) (hy : y ∈ db.bookings)
    (hid : x.id = y.id) : x = y := by
  have h1 := findB_of_mem_nodup db hnd x hx
  have h2 := findB_of_mem_nodup db hnd y hy
  rw [hid, h2] at h1
  exact (Option.some.inj h1).symm

/-- A fetched list (a filter of the table) inherits distinct ids. -/
lemma selection_nodup (db : DB) (hnd : (db.bookings.map Booking.id).Nodup)
    (p : Booking → Bool) :
    ((db.bookings.filter p).map Booking.id).Nodup :=
  List.Nodup.sublist (List.Sublist.map Booking.id (List.filter_sublist _)) hnd

/-!
## C8 — the completion pass
-/

/-- C8: the completion pass sends no notification at all; it moves a
booking to `completed` (recording `completed_at` and leaving every other
column unchanged — the conclusion is a record update of exactly the two
columns) precisely when its status is `confirmed` and the current instant
has reached its end instant, and leaves the booking untouched otherwise. -/
theorem C8_complete_pass_spec (db : DB) (now j : Nat) (b : Booking)
    (hnd : (db.bookings.map Booking.id).Nodup)
    (hb : findB db j = some b) :
    (complete_finished_bookings now db).2 = []
    ∧ (b.status = "confirmed" → b.endAbs ≤ now →
        findB (complete_finished_bookings now db).1 j
          = some { b with status := "completed", completed_at := some now })
    ∧ (¬ (b.status = "confirmed" ∧ b.endAbs ≤ now) →
        findB (complete_finished_bookings now db).1 j = some b) := by
  have hpb : (b.id == j) = true :=
    @List.find?_some _ (fun (x : Booking) => x.id == j) b db.bookings hb
  rw [beq_iff_eq] at hpb
  subst hpb
  have hmem : b ∈ db.bookings :=
    @List.mem_of_find?_eq_some _ (fun (x : Booking) => x.id == b.id) b db.bookings hb
  have hsil : ∀ (d : DB) (x : Booking), (completeStep now d x).2 = [] := by
    intro d x
    unfold completeStep
    split <;> rfl
  refine ⟨runSteps_silent _ hsil _ db, ?_, ?_⟩
  · intro hconf hend
    have hbl : b ∈ get_bookings_to_complete db := by
      unfold get_bookings_to_complete
      rw [List.mem_filter]
      exact ⟨hmem, by simp [hconf]⟩
    obtain ⟨db1, h1, h2, _⟩ := runSteps_at_mem (completeStep now)
      (completeStep_frame now) db (get_bookings_to_complete db) b hbl
      (selection_nodup db hnd _)
    rw [show complete_finished_bookings now db
        = runSteps (completeStep now) (get_bookings_to_complete db) db from rfl,
      h2]
    unfold completeStep
    rw [if_pos hend, findB_add_event, findB_complete_booking, if_pos rfl, h1, hb]
    rfl
  · intro hnc
    by_cases hcs : b.status = "confirmed"
    · have hend : ¬ b.endAbs ≤ now := fun h => hnc ⟨hcs, h⟩
      have hbl : b ∈ get_bookings_to_complete db := by
        unfold get_bookings_to_complete
        rw [List.mem_filter]
        exact ⟨hmem, by simp [hcs]⟩
      obtain ⟨db1, h1, h2, _⟩ := runSteps_at_mem (completeStep now)
        (completeStep_frame now) db (get_bookings_to_complete db) b hbl
        (selection_nodup db hnd _)
      rw [show complete_finished_bookings now db
          = runSteps (completeStep now) (get_bookings_to_complete db) db from rfl,
        h2]
      unfold completeStep
      rw [if_neg hend]
      rw [h1, hb]
    · have hfr : ∀ x ∈ get_bookings_to_complete db, b.id ≠ x.id := by
        intro x hx hxe
        unfold get_bookings_to_complete at hx
        rw [List.mem_filter] at hx
        have hxb : x = b := mem_id_inj db hnd x b hx.1 hmem hxe.symm
        rw [hxb] at hx
        exact hcs (by simpa using hx.2)
      rw [show complete_finished_bookings now db
          = runSteps (completeStep now) (get_bookings_to_complete db) db from rfl,
        runSteps_frame _ (completeStep_frame now) _ db b.id hfr, hb]

/-- C8 witness: a concrete confirmed booking past its end is completed with
only status and `completed_at` changed, and an untouched pending booking of
the same run stays as it was. -/
theorem C8_witness :
    (complete_finished_bookings (1440 * 5 + 700) (DB.mk
        [mkBooking 1 10 5 600 660 "confirmed" 1 0] [] 2)).2 = []
    ∧ findB (complete_finished_bookings (1440 * 5 + 700) (DB.mk
        [mkBooking 1 10 5 600 660 "confirmed" 1 0] [] 2)).1 1
      = some { mkBooking 1 10 5 600 660 "confirmed" 1 0 with
               status := "completed", completed_at := some (1440 * 5 + 700) } := by
  have h := C8_complete_pass_spec (DB.mk
      [mkBooking 1 10 5 600 660 "confirmed" 1 0] [] 2)
    (1440 * 5 + 700) 1 (mkBooking 1 10 5 600 660 "confirmed" 1 0)
    (by decide) (by decide)
  exact ⟨h.1, h.2.1 (by decide) (by decide)⟩

/-!
## C1 — the timeout-cancellation pass
-/

/-- C1 counterexample: a pending booking with the remind flag set, ten
minutes past its start (≥ grace period), is processed by the timeout pass —
and its resulting status is `"cancelled"`, not `"cancelled_timeout"` as the
claim states (`database.cancel_booking` maps `cancelled_by="system"` to the
status `"cancelled"`; only the event kind is `cancelled_timeout`). -/
theorem C1_counterexample :
    (findB (check_expired_bookings 610 (fun _ => true) (fun _ => true)
        (DB.mk [mkBooking 1 10 0 600 660 "pending" 1 0] [] 2)).1 1).map
        Booking.status
      = some "cancelled"
    ∧ "cancelled" ≠ "cancelled_timeout" := by
  constructor
  · decide
  · decide

/-- C1 (amended): when the timeout pass fires for a pending booking (remind
flag set, minutes-since-start ≥ grace period, status still pending), the
booking's status is moved to `"cancelled"` (the status the store assigns to
system cancellations; the audit event kind is `cancelled_timeout`), the
cancellation reason is recorded, exactly one `cancelled_timeout` event is
appended, the user and the group are notified (when the transport succeeds
and the group was not already notified), and the group-notified flag is
set. -/
theorem C1_timeout_pass_amended (db : DB) (now j : Nat) (b : Booking)
    (userOk groupOk : Nat → Bool)
    (hnd : (db.bookings.map Booking.id).Nodup)
    (hb : findB db j = some b)
    (hp : b.status = "pending") (hr : b.remind_sent = 1)
    (hgrace : BOOKING_CONFIRM_GRACE_MINUTES ≤ (now : Int) - (b.startAbs : Int))
    (hgn : b.group_notified = 0)
    (hu : userOk j = true) (hg : groupOk j = true) :
    findB (check_expired_bookings now userOk groupOk db).1 j
      = some { b with
          status := "cancelled",
          cancelled_at := some now,
          cancelled_by := some "system",
          cancel_reason := some timeoutReason,
          group_notified := 1 }
    ∧ eventCount (check_expired_bookings now userOk groupOk db).1 j
        "cancelled_timeout"
      = eventCount db j "cancelled_timeout" + 1
    ∧ Effect.userCancelMsg j ∈ (check_expired_bookings now userOk groupOk db).2
    ∧ Effect.groupCancelMsg j ∈ (check_expired_bookings now userOk groupOk db).2 := by
  have hpb : (b.id == j) = true :=
    @List.find?_some _ (fun (x : Booking) => x.id == j) b db.bookings hb
  rw [beq_iff_eq] at hpb
  subst hpb
  have hmem : b ∈ db.bookings :=
    @List.mem_of_find?_eq_some _ (fun (x : Booking) => x.id == b.id) b db.bookings hb
  have hbl : b ∈ get_bookings_needing_cancellation db := by
    unfold get_bookings_needing_cancellation
    rw [List.mem_filter]
    exact ⟨hmem, by simp [hp, hr]⟩
  obtain ⟨db1, h1, h2, h3, h4, h5⟩ := runSteps_at_mem_events
    (expiredStep now userOk groupOk) (expiredStep_frame now userOk groupOk)
    (expiredStep_events now userOk groupOk) db _ b hbl
    (selection_nodup db hnd _) "cancelled_timeout"
  have hstep : expiredStep now userOk groupOk db1 b
      = (mark_group_notified (add_booking_event
          (cancel_booking db1 b.id "system" timeoutReason now)
          b.id "cancelled_timeout" "system" none now) b.id,
         [Effect.userCancelMsg b.id, Effect.groupCancelMsg b.id]) := by
    unfold expiredStep
    rw [if_pos hgrace, if_pos hu, if_pos (by simp [hgn, hg])]
    rfl
  refine ⟨?_, ?_, ?_, ?_⟩
  · rw [show check_expired_bookings now userOk groupOk db
        = runSteps (expiredStep now userOk groupOk)
            (get_bookings_needing_cancellation db) db from rfl, h3, hstep]
    rw [findB_mark_group_notified, if_pos rfl, findB_add_event,
      findB_cancel_booking, if_pos rfl, h1, hb]
    rfl
  · rw [show check_expired_bookings now userOk groupOk db
        = runSteps (expiredStep now userOk groupOk)
            (get_bookings_needing_cancellation db) db from rfl, h4, hstep]
    rw [eventCount_mark_group_notified, eventCount_add_event,
      eventCount_cancel_booking, if_pos ⟨rfl, rfl⟩, h2]
  · exact h5 (by rw [hstep]; simp)
  · exact h5 (by rw [hstep]; simp)

/-- C1 witness: a concrete pending, reminded booking six minutes past its
start is cancelled by the pass with reason and both notifications. -/
theorem C1_witness :
    findB (check_expired_bookings (1440 + 636) (fun _ => true) (fun _ => true)
        (DB.mk [mkBooking 2 11 1 630 690 "pending" 1 0] [] 3)).1 2
      = some { mkBooking 2 11 1 630 690 "pending" 1 0 with
          status := "cancelled",
          cancelled_at := some (1440 + 636),
          cancelled_by := some "system",
          cancel_reason := some timeoutReason,
          group_notified := 1 }
    ∧ Effect.userCancelMsg 2 ∈ (check_expired_bookings (1440 + 636)
        (fun _ => true) (fun _ => true)
        (DB.mk [mkBooking 2 11 1 630 690 "pending" 1 0] [] 3)).2 := by
  have h := C1_timeout_pass_amended
    (DB.mk [mkBooking 2 11 1 630 690 "pending" 1 0] [] 3)
    (1440 + 636) 2 (mkBooking 2 11 1 630 690 "pending" 1 0)
    (fun _ => true) (fun _ => true) (by decide) (by decide) (by decide)
    (by decide) (by decide) (by decide) (by decide) (by decide)
  exact ⟨h.1, h.2.2.1⟩

/-!
## C3 — the group-notified flag on notification failure
-/

/-- Sound direction of group-message emission: a group cancellation message
for id `j` can only come from the loop body of a fetched booking with id
`j` whose fetched copy had the flag unset and whose transport succeeded. -/
lemma expired_group_msg_sound (now : Nat) (userOk groupOk : Nat → Bool) :
    ∀ (l : List Booking) (db : DB) (j : Nat),
      Effect.groupCancelMsg j ∈
          (runSteps (expiredStep now userOk groupOk) l db).2 →
      ∃ x ∈ l, x.id = j ∧ x.group_notified = 0 ∧ groupOk j = true := by
  intro l
  induction l with
  | nil =>
    intro db j h
    cases h
  | cons x t ih =>
    intro db j h
    simp only [runSteps, List.mem_append] at h
    rcases h with h | h
    · unfold expiredStep at h
      split at h
      · simp only [List.mem_append] at h
        rcases h with h | h
        · split at h <;> simp at h
        · split at h
          · rename_i hguard
            simp only [List.mem_singleton] at h
            cases h
            rw [Bool.and_eq_true, beq_iff_eq] at hguard
            exact ⟨x, by simp, rfl, hguard.1, hguard.2⟩
          · simp at h
      · simp at h
    · obtain ⟨y, hy, hrest⟩ := ih _ j h
      exact ⟨y, by simp [hy], hrest⟩

/-- C3 counterexample: the grace-expired pass is run with a failing group
transport; the group-notified flag is nevertheless set to 1 (the source
calls `mark_group_notified` unconditionally after the attempt) and no group
message was delivered — the claim that the flag remains unset on failure is
false. -/
theorem C3_counterexample :
    (findB (check_expired_bookings 620 (fun _ => true) (fun _ => false)
        (DB.mk [mkBooking 1 10 0 600 660 "pending" 1 0] [] 2)).1 1).map
        Booking.group_notified
      = some 1
    ∧ Effect.groupCancelMsg 1 ∉ (check_expired_bookings 620 (fun _ => true)
        (fun _ => false)
        (DB.mk [mkBooking 1 10 0 600 660 "pending" 1 0] [] 2)).2 := by
  constructor
  · decide
  · decide

/-- C3 (amended): when the timeout pass fires for a booking, the
group-notified flag is set unconditionally after the notification attempt,
whether or not the group message was delivered; the group message is
delivered exactly when the fetched copy had the flag unset and the
transport succeeded (so a failed group notification is never retried — the
idempotency protection is against duplicates, not against missed sends). -/
theorem C3_group_flag_amended (db : DB) (now j : Nat) (b : Booking)
    (userOk groupOk : Nat → Bool)
    (hnd : (db.bookings.map Booking.id).Nodup)
    (hb : findB db j = some b)
    (hp : b.status = "pending") (hr : b.remind_sent = 1)
    (hgrace : BOOKING_CONFIRM_GRACE_MINUTES ≤ (now : Int) - (b.startAbs : Int)) :
    findB (check_expired_bookings now userOk groupOk db).1 j
      = some { b with
          status := "cancelled",
          cancelled_at := some now,
          cancelled_by := some "system",
          cancel_reason := some timeoutReason,
          group_notified := 1 }
    ∧ (Effect.groupCancelMsg j ∈ (check_expired_bookings now userOk groupOk db).2
        ↔ b.group_notified = 0 ∧ groupOk j = true) := by
  have hpb : (b.id == j) = true :=
    @List.find?_some _ (fun (x : Booking) => x.id == j) b db.bookings hb
  rw [beq_iff_eq] at hpb
  subst hpb
  have hmem : b ∈ db.bookings :=
    @List.mem_of_find?_eq_some _ (fun (x : Booking) => x.id == b.id) b db.bookings hb
  have hbl : b ∈ get_bookings_needing_cancellation db := by
    unfold get_bookings_needing_cancellation
    rw [List.mem_filter]
    exact ⟨hmem, by simp [hp, hr]⟩
  obtain ⟨db1, h1, h2, h3, h4, h5⟩ := runSteps_at_mem_events
    (expiredStep now userOk groupOk) (expiredStep_frame now userOk groupOk)
    (expiredStep_events now userOk groupOk) db _ b hbl
    (selection_nodup db hnd _) "cancelled_timeout"
  constructor
  · rw [show check_expired_bookings now userOk groupOk db
        = runSteps (expiredStep now userOk groupOk)
            (get_bookings_needing_cancellation db) db from rfl, h3]
    unfold expiredStep
    rw [if_pos hgrace]
    rw [findB_mark_group_notified, if_pos rfl, findB_add_event,
      findB_cancel_booking, if_pos rfl, h1, hb]
    rfl
  · constructor
    · intro hmsg
      obtain ⟨x, hxl, hxid, hxgn, hxok⟩ :=
        expired_group_msg_sound now userOk groupOk _ db b.id hmsg
      unfold get_bookings_needing_cancellation at hxl
      rw [List.mem_filter] at hxl
      have hxb : x = b := mem_id_inj db hnd x b hxl.1 hmem hxid
      rw [hxb] at hxgn
      exact ⟨hxgn, hxok⟩
    · intro ⟨hgn0, hgok⟩
      refine h5 ?_
      unfold expiredStep
      rw [if_pos hgrace]
      simp only [List.mem_append]
      right
      rw [if_pos (by simp [hgn0, hgok])]
      simp

/-- C3 witness: with a succeeding transport and the flag initially unset,
the flag ends set and the group message is delivered. -/
theorem C3_witness :
    findB (check_expired_bookings (1440 * 2 + 400) (fun _ => false)
        (fun _ => true)
        (DB.mk [mkBooking 5 14 2 360 420 "pending" 1 0] [] 6)).1 5
      = some { mkBooking 5 14 2 360 420 "pending" 1 0 with
          status := "cancelled",
          cancelled_at := some (1440 * 2 + 400),
          cancelled_by := some "system",
          cancel_reason := some timeoutReason,
          group_notified := 1 }
    ∧ (Effect.groupCancelMsg 5 ∈ (check_expired_bookings (1440 * 2 + 400)
        (fun _ => false) (fun _ => true)
        (DB.mk [mkBooking 5 14 2 360 420 "pending" 1 0] [] 6)).2
        ↔ (mkBooking 5 14 2 360 420 "pending" 1 0).group_notified = 0
          ∧ (fun (_ : Nat) => true) 5 = true) :=
  C3_group_flag_amended
    (DB.mk [mkBooking 5 14 2 360 420 "pending" 1 0] [] 6)
    (1440 * 2 + 400) 5 (mkBooking 5 14 2 360 420 "pending" 1 0)
    (fun _ => false) (fun _ => true) (by decide) (by decide) (by decide)
    (by decide) (by decide)

/-!
## C9 — the confirmation callback
-/

/-- C9: the confirm operation is legal only from `pending`.  For any
non-pending booking the callback reports a label derived from the current
status (the `status_text` mapping) and performs no write at all — the store
(bookings and event log) is returned unchanged.  From `pending` it sets the
status to `confirmed`, records `confirmed_at`, appends exactly one
`confirmed` event and replies with the confirmation message. -/
theorem C9_confirm_callback_spec (db : DB) (bid actor now : Nat) (b : Booking)
    (hb : findB db bid = some b) :
    (b.status ≠ "pending" →
        (confirm_booking_callback db bid actor now).1 = db
        ∧ (confirm_booking_callback db bid actor now).2
            = Reply.alreadyStatus (statusText b.status))
    ∧ (b.status = "pending" →
        findB (confirm_booking_callback db bid actor now).1 bid
          = some { b with status := "confirmed", confirmed_at := some now }
        ∧ eventCount (confirm_booking_callback db bid actor now).1 bid "confirmed"
            = eventCount db bid "confirmed" + 1
        ∧ (confirm_booking_callback db bid actor now).2 = Reply.confirmedOk) := by
  constructor
  · intro hnp
    have hr : confirm_booking_callback db bid actor now
        = (db, Reply.alreadyStatus (statusText b.status)) := by
      unfold confirm_booking_callback
      rw [hb]
      simp [hnp]
    rw [hr]
    exact ⟨rfl, rfl⟩
  · intro hp
    have hr : confirm_booking_callback db bid actor now
        = (add_booking_event (confirm_booking db bid now) bid "confirmed" "user"
            (some actor) now, Reply.confirmedOk) := by
      unfold confirm_booking_callback
      rw [hb]
      simp [hp]
    rw [hr]
    refine ⟨?_, ?_, rfl⟩
    · rw [findB_add_event, findB_confirm_booking, if_pos rfl, hb]
      rfl
    · rw [eventCount_add_event, eventCount_confirm_booking, if_pos ⟨rfl, rfl⟩]

/-- C9 witness: confirming an already-completed booking changes nothing and
reports the status; confirming a pending one transitions it. -/
theorem C9_witness :
    ((confirm_booking_callback
        (DB.mk [mkBooking 4 12 0 600 660 "completed" 1 0] [] 5) 4 12 650).1
      = DB.mk [mkBooking 4 12 0 600 660 "completed" 1 0] [] 5
    ∧ (confirm_booking_callback
        (DB.mk [mkBooking 4 12 0 600 660 "completed" 1 0] [] 5) 4 12 650).2
      = Reply.alreadyStatus (statusText "completed"))
    ∧ findB (confirm_booking_callback
        (DB.mk [mkBooking 6 13 0 600 660 "pending" 0 0] [] 7) 6 13 598).1 6
      = some { mkBooking 6 13 0 600 660 "pending" 0 0 with
          status := "confirmed",
          confirmed_at := some 598 } := by
  constructor
  · exact (C9_confirm_callback_spec
      (DB.mk [mkBooking 4 12 0 600 660 "completed" 1 0] [] 5) 4 12 650
      (mkBooking 4 12 0 600 660 "completed" 1 0) (by decide)).1 (by decide)
  · exact ((C9_confirm_callback_spec
      (DB.mk [mkBooking 6 13 0 600 660 "pending" 0 0] [] 7) 6 13 598
      (mkBooking 6 13 0 600 660 "pending" 0 0) (by decide)).2 (by decide)).1

/-!
## C10 — an unreminded pending booking is never transitioned
-/

/-- The id column of the store is unchanged by the reminder body. -/
lemma step_ids_remind (now : Nat) (ok : Nat → Bool) :
    ∀ (d : DB) (x : Booking),
      ((remindStep now ok d x).1).bookings.map Booking.id
        = d.bookings.map Booking.id := by
  intro d x
  unfold remindStep
  split
  · split
    · exact map_id_updRow (fun b => { b with remind_sent := 1 })
        (fun _ => rfl) x.id d.bookings
    · rfl
  · rfl

/-- The id column of the store is unchanged by the timeout body. -/
lemma step_ids_expired (now : Nat) (uo go : Nat → Bool) :
    ∀ (d : DB) (x : Booking),
      ((expiredStep now uo go d x).1).bookings.map Booking.id
        = d.bookings.map Booking.id := by
  intro d x
  unfold expiredStep
  split
  · exact (map_id_updRow (fun b => { b with group_notified := 1 })
        (fun _ => rfl) x.id _).trans
      (map_id_updRow
        (fun b =>
          { b with
            status := cancelStatusOf "system",
            cancelled_at := some now,
            cancelled_by := some "system",
            cancel_reason := some timeoutReason })
        (fun _ => rfl) x.id d.bookings)
  · rfl

/-- The id column of the store is unchanged by the completion body. -/
lemma step_ids_complete (now : Nat) :
    ∀ (d : DB) (x : Booking),
      ((completeStep now d x).1).bookings.map Booking.id
        = d.bookings.map Booking.id := by
  intro d x
  unfold completeStep
  split
  · exact map_id_updRow
      (fun b => { b with status := "completed", completed_at := some now })
      (fun _ => rfl) x.id d.bookings
  · rfl

/-- The id column of the store is unchanged by a whole loop whose body
preserves it. -/
lemma runSteps_ids (step : DB → Booking → DB × List Effect)
    (h : ∀ (d : DB) (x : Booking),
      ((step d x).1).bookings.map Booking.id = d.bookings.map Booking.id) :
    ∀ (l : List Booking) (db : DB),
      ((runSteps step l db).1).bookings.map Booking.id
        = db.bookings.map Booking.id := by
  intro l
  induction l with
  | nil => intro db; rfl
  | cons x t ih =>
    intro db
    simp only [runSteps]
    rw [ih, h]

/-- The id column of the store is unchanged by the reminder pass. -/
lemma pass_ids_remind (now : Nat) (ro : Nat → Bool) (db : DB) :
    ((check_upcoming_bookings now ro db).1).bookings.map Booking.id
      = db.bookings.map Booking.id :=
  runSteps_ids _ (step_ids_remind now ro) _ db

/-- The id column of the store is unchanged by the timeout pass. -/
lemma pass_ids_expired (now : Nat) (uo go : Nat → Bool) (db : DB) :
    ((check_expired_bookings now uo go db).1).bookings.map Booking.id
      = db.bookings.map Booking.id :=
  runSteps_ids _ (step_ids_expired now uo go) _ db

/-- The id column of the store is unchanged by the completion pass. -/
lemma pass_ids_complete (now : Nat) (db : DB) :
    ((complete_finished_bookings now db).1).bookings.map Booking.id
      = db.bookings.map Booking.id :=
  runSteps_ids _ (step_ids_complete now) _ db

/-- The id column of the store is unchanged by a full scheduler tick. -/
lemma tick_ids (now : Nat) (ro uo go : Nat → Bool) (db : DB) :
    ((schedulerTick now ro uo go db).1).bookings.map Booking.id
      = db.bookings.map Booking.id := by
  show ((complete_finished_bookings now
      (check_expired_bookings now uo go
        (check_upcoming_bookings now ro db).1).1).1).bookings.map Booking.id
    = db.bookings.map Booking.id
  rw [pass_ids_complete, pass_ids_expired, pass_ids_remind]

/-- Sound direction of reminder emission: a reminder message for id `j` can
only come from the body of a fetched booking with id `j` that is inside the
reminder window and whose transport succeeded. -/
lemma remind_msg_sound (now : Nat) (ok : Nat → Bool) :
    ∀ (l : List Booking) (db : DB) (j : Nat),
      Effect.remindMsg j ∈ (runSteps (remindStep now ok) l db).2 →
      ∃ x ∈ l, x.id = j
        ∧ 0 ≤ (x.startAbs : Int) - (now : Int)
        ∧ (x.startAbs : Int) - (now : Int) ≤ BOOKING_CONFIRM_BEFORE_MINUTES
        ∧ ok j = true := by
  intro l
  induction l with
  | nil =>
    intro db j h
    cases h
  | cons x t ih =>
    intro db j h
    simp only [runSteps, List.mem_append] at h
    rcases h with h | h
    · unfold remindStep at h
      split at h
      · rename_i hwin
        split at h
        · rename_i hok
          simp only [List.mem_singleton] at h
          cases h
          exact ⟨x, by simp, rfl, hwin.1, hwin.2, hok⟩
        · cases h
      · cases h
    · obtain ⟨y, hy, hr⟩ := ih _ j h
      exact ⟨y, by simp [hy], hr⟩

/-- The timeout pass never touches a booking whose remind flag is 0: its
scan selects only `remind_sent = 1`. -/
lemma expired_pass_skips_unreminded (db : DB) (j : Nat) (b : Booking)
    (now : Nat) (uo go : Nat → Bool)
    (hnd : (db.bookings.map Booking.id).Nodup)
    (hb : findB db j = some b) (hr0 : b.remind_sent = 0) :
    findB (check_expired_bookings now uo go db).1 j = some b := by
  have hpb : (b.id == j) = true :=
    @List.find?_some _ (fun (x : Booking) => x.id == j) b db.bookings hb
  rw [beq_iff_eq] at hpb
  subst hpb
  have hmem : b ∈ db.bookings :=
    @List.mem_of_find?_eq_some _ (fun (x : Booking) => x.id == b.id) b db.bookings hb
  have hfr : ∀ x ∈ get_bookings_needing_cancellation db, b.id ≠ x.id := by
    intro x hx hxe
    unfold get_bookings_needing_cancellation at hx
    rw [List.mem_filter] at hx
    have hxb : x = b := mem_id_inj db hnd x b hx.1 hmem hxe.symm
    rw [hxb] at hx
    have := hx.2
    rw [Bool.and_eq_true] at this
    rw [hr0] at this
    simp at this
  rw [show check_expired_bookings now uo go db
      = runSteps (expiredStep now uo go)
          (get_bookings_needing_cancellation db) db from rfl,
    runSteps_frame _ (expiredStep_frame now uo go) _ db b.id hfr, hb]

/-- The completion pass never touches a pending booking: its scan selects
only `confirmed`. -/
lemma complete_pass_skips_pending (db : DB) (j : Nat) (b : Booking)
    (now : Nat) (hnd : (db.bookings.map Booking.id).Nodup)
    (hb : findB db j = some b) (hp : b.status = "pending") :
    findB (complete_finished_bookings now db).1 j = some b := by
  have hpb : (b.id == j) = true :=
    @List.find?_some _ (fun (x : Booking) => x.id == j) b db.bookings hb
  rw [beq_iff_eq] at hpb
  subst hpb
  have hmem : b ∈ db.bookings :=
    @List.mem_of_find?_eq_some _ (fun (x : Booking) => x.id == b.id) b db.bookings hb
  have hfr : ∀ x ∈ get_bookings_to_complete db, b.id ≠ x.id := by
    intro x hx hxe
    unfold get_bookings_to_complete at hx
    rw [List.mem_filter] at hx
    have hxb : x = b := mem_id_inj db hnd x b hx.1 hmem hxe.symm
    rw [hxb] at hx
    have := hx.2
    rw [beq_iff_eq, hp] at this
    exact absurd this (by decide)
  rw [show complete_finished_bookings now db
      = runSteps (completeStep now) (get_bookings_to_complete db) db from rfl,
    runSteps_frame _ (completeStep_frame now) _ db b.id hfr, hb]

/-- The reminder pass leaves a pending, unreminded booking untouched, and
sends it no reminder, once its start has passed (its window `0 ≤
minutes_until ≤ lead` can no longer hold). -/
lemma remind_pass_skips_past (db : DB) (j : Nat) (b : Booking)
    (now : Nat) (ro : Nat → Bool)
    (hnd : (db.bookings.map Booking.id).Nodup)
    (hb : findB db j = some b)
    (hp : b.status = "pending") (hr0 : b.remind_sent = 0)
    (hlate : (b.startAbs : Int) - (now : Int) < 0) :
    findB (check_upcoming_bookings now ro db).1 j = some b
    ∧ Effect.remindMsg j ∉ (check_upcoming_bookings now ro db).2 := by
  have hpb : (b.id == j) = true :=
    @List.find?_some _ (fun (x : Booking) => x.id == j) b db.bookings hb
  rw [beq_iff_eq] at hpb
  subst hpb
  have hmem : b ∈ db.bookings :=
    @List.mem_of_find?_eq_some _ (fun (x : Booking) => x.id == b.id) b db.bookings hb
  have hbl : b ∈ get_bookings_needing_reminder db := by
    unfold get_bookings_needing_reminder
    rw [List.mem_filter]
    exact ⟨hmem, by simp [hp, hr0]⟩
  constructor
  · obtain ⟨db1, h1, h2, _⟩ := runSteps_at_mem (remindStep now ro)
      (remindStep_frame now ro) db _ b hbl (selection_nodup db hnd _)
    rw [show check_upcoming_bookings now ro db
        = runSteps (remindStep now ro) (get_bookings_needing_reminder db) db
          from rfl, h2]
    unfold remindStep
    rw [if_neg (by omega)]
    rw [h1, hb]
  · intro hmsg
    obtain ⟨x, hxl, hxid, hxw1, _, _⟩ :=
      remind_msg_sound now ro _ db b.id hmsg
    unfold get_bookings_needing_reminder at hxl
    rw [List.mem_filter] at hxl
    have hxb : x = b := mem_id_inj db hnd x b hxl.1 hmem hxid
    rw [hxb] at hxw1
    omega

/-- A whole scheduler tick leaves a pending, unreminded booking whose start
has passed untouched. -/
lemma tick_skips_stuck (db : DB) (j : Nat) (b : Booking)
    (now : Nat) (ro uo go : Nat → Bool)
    (hnd : (db.bookings.map Booking.id).Nodup)
    (hb : findB db j = some b)
    (hp : b.status = "pending") (hr0 : b.remind_sent = 0)
    (hlate : (b.startAbs : Int) < (now : Int)) :
    findB (schedulerTick now ro uo go db).1 j = some b := by
  have s1 := (remind_pass_skips_past db j b now ro hnd hb hp hr0 (by omega)).1
  have hnd1 : (((check_upcoming_bookings now ro db).1).bookings.map Booking.id).Nodup := by
    rw [show check_upcoming_bookings now ro db
        = runSteps (remindStep now ro) (get_bookings_needing_reminder db) db
          from rfl, runSteps_ids _ (step_ids_remind now ro)]
    exact hnd
  have s2 := expired_pass_skips_unreminded _ j b now uo go hnd1 s1 hr0
  have hnd2 : (((check_expired_bookings now uo go
      (check_upcoming_bookings now ro db).1).1).bookings.map Booking.id).Nodup := by
    rw [show check_expired_bookings now uo go (check_upcoming_bookings now ro db).1
        = runSteps (expiredStep now uo go)
            (get_bookings_needing_cancellation (check_upcoming_bookings now ro db).1)
            (check_upcoming_bookings now ro db).1 from rfl,
      runSteps_ids _ (step_ids_expired now uo go)]
    exact hnd1
  exact complete_pass_skips_pending _ j b now hnd2 s2 hp

/-- Iterating ticks at instants strictly past the start leaves a pending,
unreminded booking untouched forever. -/
lemma runTicks_skips_stuck (j : Nat) (b : Booking) :
    ∀ (ticks : List (Nat × (Nat → Bool) × (Nat → Bool) × (Nat → Bool))) (db : DB),
      (db.bookings.map Booking.id).Nodup →
      findB db j = some b →
      b.status = "pending" → b.remind_sent = 0 →
      (∀ p ∈ ticks, (b.startAbs : Int) < (p.1 : Int)) →
      findB (runTicks ticks db) j = some b := by
  intro ticks
  induction ticks with
  | nil =>
    intro db _ hb _ _ _
    exact hb
  | cons p rest ih =>
    intro db hnd hb hp hr0 hpast
    obtain ⟨now, ro, uo, go⟩ := p
    show findB (runTicks rest (schedulerTick now ro uo go db).1) j = some b
    refine ih _ ?_ ?_ hp hr0 ?_
    · rw [tick_ids]
      exact hnd
    · exact tick_skips_stuck db j b now ro uo go hnd hb hp hr0
        (hpast (now, ro, uo, go) (List.mem_cons_self _ _))
    · intro q hq
      exact hpast q (by simp [hq])

/-- C10: a pending booking whose remind flag is 0 is never auto-cancelled
(the timeout scan selects only `remind_sent = 1`), never completed (that
scan selects only `confirmed`), and once its start instant has passed the
reminder window can never hold again — so any sequence of scheduler ticks
at instants strictly after the start leaves the booking pending and
unchanged, with no reminder ever delivered. -/
theorem C10_unreminded_pending_stuck (db : DB) (j : Nat) (b : Booking)
    (ticks : List (Nat × (Nat → Bool) × (Nat → Bool) × (Nat → Bool)))
    (hnd : (db.bookings.map Booking.id).Nodup)
    (hb : findB db j = some b)
    (hp : b.status = "pending") (hr0 : b.remind_sent = 0)
    (hpast : ∀ p ∈ ticks, (b.startAbs : Int) < (p.1 : Int)) :
    (∀ (now : Nat) (uo go : Nat → Bool),
        findB (check_expired_bookings now uo go db).1 j = some b)
    ∧ (∀ now : Nat, findB (complete_finished_bookings now db).1 j = some b)
    ∧ (∀ (now : Nat) (ro : Nat → Bool), (b.startAbs : Int) - (now : Int) < 0 →
        findB (check_upcoming_bookings now ro db).1 j = some b
          ∧ Effect.remindMsg j ∉ (check_upcoming_bookings now ro db).2)
    ∧ findB (runTicks ticks db) j = some b := by
  refine ⟨?_, ?_, ?_, ?_⟩
  · intro now uo go
    exact expired_pass_skips_unreminded db j b now uo go hnd hb hr0
  · intro now
    exact complete_pass_skips_pending db j b now hnd hb hp
  · intro now ro hlate
    exact remind_pass_skips_past db j b now ro hnd hb hp hr0 hlate
  · exact runTicks_skips_stuck j b ticks db hnd hb hp hr0 hpast

/-- C10 witness: three ticks at minutes 700, 760 and 4000 (all past the
10:00 start) leave the unreminded pending booking exactly as it was. -/
theorem C10_witness :
    findB (runTicks
        [(700, fun _ => true, fun _ => true, fun _ => true),
         (760, fun _ => false, fun _ => true, fun _ => false),
         (4000, fun _ => true, fun _ => false, fun _ => true)]
        (DB.mk [mkBooking 8 21 0 600 660 "pending" 0 0] [] 9)) 8
      = some (mkBooking 8 21 0 600 660 "pending" 0 0) :=
  (C10_unreminded_pending_stuck
    (DB.mk [mkBooking 8 21 0 600 660 "pending" 0 0] [] 9) 8
    (mkBooking 8 21 0 600 660 "pending" 0 0)
    [(700, fun _ => true, fun _ => true, fun _ => true),
     (760, fun _ => false, fun _ => true, fun _ => false),
     (4000, fun _ => true, fun _ => false, fun _ => true)]
    (by decide) (by decide) (by decide) (by decide) (by decide)).2.2.2

/-!
## C7 — idempotence of the reminder pass
-/

/-- A table whose ids are duplicate-free holds at most one row per id. -/
lemma filter_id_le_one (l : List Booking)
    (hnd : (l.map Booking.id).Nodup) (j : Nat) :
    (l.filter (fun x => x.id == j)).length ≤ 1 := by
  induction l with
  | nil => simp
  | cons x t ih =>
    rw [List.map_cons, List.nodup_cons] at hnd
    rw [List.filter_cons]
    by_cases hxj : (x.id == j) = true
    · rw [if_pos hxj]
      rw [beq_iff_eq] at hxj
      have hnil : t.filter (fun x => x.id == j) = [] := by
        rw [List.filter_eq_nil_iff]
        intro a ha hpa
        rw [beq_iff_eq] at hpa
        exact hnd.1 ((hpa.trans hxj.symm) ▸ List.mem_map_of_mem Booking.id ha)
      simp [hnil]
    · rw [if_neg hxj]
      exact ih hnd.2

/-- The number of reminder messages for id `j` emitted by one pass is
bounded by the number of fetched rows with that id. -/
lemma remind_msg_count (now : Nat) (ok : Nat → Bool) :
    ∀ (l : List Booking) (db : DB) (j : Nat),
      ((runSteps (remindStep now ok) l db).2).count (Effect.remindMsg j)
        ≤ (l.filter (fun x => x.id == j)).length := by
  intro l
  induction l with
  | nil =>
    intro db j
    simp [runSteps]
  | cons x t ih =>
    intro db j
    simp only [runSteps]
    rw [List.count_append]
    have hstep : ((remindStep now ok db x).2).count (Effect.remindMsg j)
        ≤ (if (x.id == j) = true then 1 else 0) := by
      unfold remindStep
      split
      · split
        · by_cases hxj : x.id = j <;> simp [hxj, List.count_cons]
        · simp
      · simp
    have htail := ih (remindStep now ok db x).1 j
    rw [List.filter_cons]
    by_cases hxj : (x.id == j) = true
    · rw [if_pos hxj]
      rw [if_pos hxj] at hstep
      simp only [List.length_cons]
      omega
    · rw [if_neg hxj]
      rw [if_neg hxj] at hstep
      omega

/-- Once a row carries `remind_sent = 1`, the reminder body never clears
it. -/
lemma remindStep_flag_mono (now : Nat) (ok : Nat → Bool) (d : DB)
    (x : Booking) (j : Nat)
    (h : ∃ c, findB d j = some c ∧ c.remind_sent = 1) :
    ∃ c, findB (remindStep now ok d x).1 j = some c ∧ c.remind_sent = 1 := by
  by_cases hxj : j = x.id
  · subst hxj
    unfold remindStep
    split
    · split
      · obtain ⟨c, hc, _⟩ := h
        refine ⟨{ c with remind_sent := 1 }, ?_, rfl⟩
        rw [findB_add_event, findB_mark_remind_sent, if_pos rfl, hc]
        rfl
      · exact h
    · exact h
  · obtain ⟨c, hc, h1⟩ := h
    exact ⟨c, by rw [remindStep_frame now ok d x j hxj]; exact hc, h1⟩

/-- Once a row carries `remind_sent = 1`, a whole reminder loop never
clears it. -/
lemma runSteps_flag_mono (now : Nat) (ok : Nat → Bool) :
    ∀ (l : List Booking) (db : DB) (j : Nat),
      (∃ c, findB db j = some c ∧ c.remind_sent = 1) →
      ∃ c, findB (runSteps (remindStep now ok) l db).1 j = some c
        ∧ c.remind_sent = 1 := by
  intro l
  induction l with
  | nil =>
    intro db j h
    exact h
  | cons x t ih =>
    intro db j h
    simp only [runSteps]
    exact ih _ j (remindStep_flag_mono now ok db x j h)

/-- The reminder body never deletes a row. -/
lemma remindStep_some (now : Nat) (ok : Nat → Bool) (d : DB) (x : Booking)
    (j : Nat) (h : ∃ c, findB d j = some c) :
    ∃ c, findB (remindStep now ok d x).1 j = some c := by
  by_cases hxj : j = x.id
  · subst hxj
    unfold remindStep
    split
    · split
      · obtain ⟨c, hc⟩ := h
        refine ⟨{ c with remind_sent := 1 }, ?_⟩
        rw [findB_add_event, findB_mark_remind_sent, if_pos rfl, hc]
        rfl
      · exact h
    · exact h
  · obtain ⟨c, hc⟩ := h
    exact ⟨c, by rw [remindStep_frame now ok d x j hxj]; exact hc⟩

/-- If one reminder pass delivered the reminder for id `j`, the row ends
the pass with `remind_sent = 1`. -/
lemma remind_msg_flag (now : Nat) (ok : Nat → Bool) :
    ∀ (l : List Booking) (db : DB) (j : Nat),
      (∀ x ∈ l, x.id = j → ∃ c, findB db j = some c) →
      Effect.remindMsg j ∈ (runSteps (remindStep now ok) l db).2 →
      ∃ c, findB (runSteps (remindStep now ok) l db).1 j = some c
        ∧ c.remind_sent = 1 := by
  intro l
  induction l with
  | nil =>
    intro db j _ h
    cases h
  | cons x t ih =>
    intro db j hex h
    simp only [runSteps, List.mem_append] at h ⊢
    rcases h with h | h
    · have hcopy := h
      unfold remindStep at hcopy
      split at hcopy
      · split at hcopy
        · rename_i hwin hok
          simp only [List.mem_singleton] at hcopy
          cases hcopy
          obtain ⟨c, hc⟩ := hex x (by simp) rfl
          refine runSteps_flag_mono now ok t _ x.id ?_
          refine ⟨{ c with remind_sent := 1 }, ?_, rfl⟩
          unfold remindStep
          rw [if_pos hwin, if_pos hok, findB_add_event, findB_mark_remind_sent,
            if_pos rfl, hc]
          rfl
        · cases hcopy
      · cases hcopy
    · refine ih _ j ?_ h
      intro y hy hyj
      exact remindStep_some now ok db x j (hex y (by simp [hy]) hyj)

/-- Each delivered reminder for id `j` is matched by exactly one appended
`remind_sent` event for `j`. -/
lemma remind_events_count (now : Nat) (ok : Nat → Bool) :
    ∀ (l : List Booking) (db : DB) (j : Nat),
      eventCount (runSteps (remindStep now ok) l db).1 j "remind_sent"
        = eventCount db j "remind_sent"
          + ((runSteps (remindStep now ok) l db).2).count (Effect.remindMsg j) := by
  intro l
  induction l with
  | nil =>
    intro db j
    simp [runSteps]
  | cons x t ih =>
    intro db j
    simp only [runSteps]
    rw [List.count_append, ih]
    have hstep : eventCount (remindStep now ok db x).1 j "remind_sent"
        = eventCount db j "remind_sent"
          + ((remindStep now ok db x).2).count (Effect.remindMsg j) := by
      unfold remindStep
      split
      · split
        · rw [eventCount_add_event, eventCount_mark_remind_sent]
          by_cases hxj : x.id = j
          · rw [if_pos ⟨hxj, rfl⟩]
            simp [hxj, List.count_cons]
          · rw [if_neg (fun hh => hxj hh.1)]
            simp [List.count_cons, hxj]
        · simp
      · simp
    rw [hstep]
    omega

/-- C7: running the reminder pass twice (any clock values, any transport
outcomes) delivers at most one reminder message per booking and appends at
most one `remind_sent` event per booking (the flag is set together with the
event, so it is set at most once). -/
theorem C7_reminder_pass_idempotent (db : DB) (j : Nat)
    (now1 now2 : Nat) (ok1 ok2 : Nat → Bool)
    (hnd : (db.bookings.map Booking.id).Nodup) :
    ((check_upcoming_bookings now1 ok1 db).2
        ++ (check_upcoming_bookings now2 ok2
              (check_upcoming_bookings now1 ok1 db).1).2).count
        (Effect.remindMsg j) ≤ 1
    ∧ eventCount (check_upcoming_bookings now2 ok2
          (check_upcoming_bookings now1 ok1 db).1).1 j "remind_sent"
        ≤ eventCount db j "remind_sent" + 1 := by
  have hnd1 : ((((check_upcoming_bookings now1 ok1 db).1).bookings).map
      Booking.id).Nodup := by
    rw [pass_ids_remind]
    exact hnd
  have hc1 : ((check_upcoming_bookings now1 ok1 db).2).count (Effect.remindMsg j)
      ≤ 1 :=
    le_trans (remind_msg_count now1 ok1 _ db j)
      (filter_id_le_one _ (selection_nodup db hnd _) j)
  have hcc : ((check_upcoming_bookings now1 ok1 db).2).count (Effect.remindMsg j)
      + ((check_upcoming_bookings now2 ok2
          (check_upcoming_bookings now1 ok1 db).1).2).count (Effect.remindMsg j)
      ≤ 1 := by
    by_cases hm1 : Effect.remindMsg j ∈ (check_upcoming_bookings now1 ok1 db).2
    · obtain ⟨c, hc, hcflag⟩ := remind_msg_flag now1 ok1 _ db j
        (by
          intro x hx hxj
          unfold get_bookings_needing_reminder at hx
          rw [List.mem_filter] at hx
          refine ⟨x, ?_⟩
          rw [← hxj]
          exact findB_of_mem_nodup db hnd x hx.1)
        hm1
      have hcB : findB (check_upcoming_bookings now1 ok1 db).1 j = some c := hc
      have hc2 : ((check_upcoming_bookings now2 ok2
          (check_upcoming_bookings now1 ok1 db).1).2).count (Effect.remindMsg j)
          = 0 := by
        have hb2 := remind_msg_count now2 ok2
          (get_bookings_needing_reminder (check_upcoming_bookings now1 ok1 db).1)
          (check_upcoming_bookings now1 ok1 db).1 j
        have hnil : (get_bookings_needing_reminder
            (check_upcoming_bookings now1 ok1 db).1).filter
              (fun x => x.id == j) = [] := by
          rw [List.filter_eq_nil_iff]
          intro a ha hpa
          rw [beq_iff_eq] at hpa
          unfold get_bookings_needing_reminder at ha
          rw [List.mem_filter] at ha
          have hax : findB (check_upcoming_bookings now1 ok1 db).1 a.id = some a :=
            findB_of_mem_nodup _ hnd1 a ha.1
          rw [hpa, hcB] at hax
          have : a = c := (Option.some.inj hax).symm
          have hflag := ha.2
          rw [Bool.and_eq_true] at hflag
          rw [this, hcflag] at hflag
          simp at hflag
        rw [hnil] at hb2
        simpa using hb2
      omega
    · have hc1z : ((check_upcoming_bookings now1 ok1 db).2).count
          (Effect.remindMsg j) = 0 := List.count_eq_zero.mpr hm1
      have hc2 : ((check_upcoming_bookings now2 ok2
          (check_upcoming_bookings now1 ok1 db).1).2).count (Effect.remindMsg j)
          ≤ 1 :=
        le_trans (remind_msg_count now2 ok2 _ _ j)
          (filter_id_le_one _ (selection_nodup _ hnd1 _) j)
      omega
  constructor
  · rw [List.count_append]
    exact hcc
  · have he1 := remind_events_count now1 ok1
      (get_bookings_needing_reminder db) db j
    have he2 := remind_events_count now2 ok2
      (get_bookings_needing_reminder (check_upcoming_bookings now1 ok1 db).1)
      (check_upcoming_bookings now1 ok1 db).1 j
    show eventCount (runSteps (remindStep now2 ok2)
        (get_bookings_needing_reminder (check_upcoming_bookings now1 ok1 db).1)
        (check_upcoming_bookings now1 ok1 db).1).1 j "remind_sent"
      ≤ eventCount db j "remind_sent" + 1
    rw [he2]
    show eventCount (runSteps (remindStep now1 ok1)
        (get_bookings_needing_reminder db) db).1 j "remind_sent"
        + _ ≤ _
    rw [he1]
    have hcc2 : ((runSteps (remindStep now1 ok1)
          (get_bookings_needing_reminder db) db).2).count (Effect.remindMsg j)
        + ((runSteps (remindStep now2 ok2)
            (get_bookings_needing_reminder (check_upcoming_bookings now1 ok1 db).1)
            (check_upcoming_bookings now1 ok1 db).1).2).count (Effect.remindMsg j)
        ≤ 1 := hcc
    omega

/-- C7 witness: one pending in-window booking, two passes with succeeding
transport: exactly one reminder in total. -/
theorem C7_witness :
    ((check_upcoming_bookings 597 (fun _ => true)
        (DB.mk [mkBooking 9 22 0 600 660 "pending" 0 0] [] 10)).2
      ++ (check_upcoming_bookings 598 (fun _ => true)
            (check_upcoming_bookings 597 (fun _ => true)
              (DB.mk [mkBooking 9 22 0 600 660 "pending" 0 0] [] 10)).1).2).count
        (Effect.remindMsg 9) ≤ 1 :=
  (C7_reminder_pass_idempotent
    (DB.mk [mkBooking 9 22 0 600 660 "pending" 0 0] [] 10) 9 597 598
    (fun _ => true) (fun _ => true) (by decide)).1

/-!
## C2 — status transitions and their audit events
-/

/-- C2 counterexample: the confirm operation writes its status change and
its audit event in two separate commits (`database.confirm_booking`
commits, then `database.add_booking_event` commits); the store state after
the first commit is observable, and there the booking is `confirmed` while
no `confirmed` event exists — the claimed atomicity does not hold. -/
theorem C2_counterexample :
    ∃ st ∈ observableStates (confirmFlow 1 42 700)
        (DB.mk [mkBooking 1 10 0 600 660 "pending" 0 0]
          [BookingEvent.mk 1 "created" (some 10) "user" none 500] 2),
      (findB st 1).map Booking.status = some "confirmed"
        ∧ eventCount st 1 "confirmed" = 0 := by
  decide

/-- C2 (amended): every transition operation, run to completion, writes
exactly one audit event of the corresponding kind for the booking together
with the status change; creation does both in a single atomic commit (the
flow has exactly one commit), while confirm, cancel and complete use two
commits, so the pairing holds at operation granularity but not atomically. -/
theorem C2_transition_events_amended (db : DB) (b : Booking)
    (bid actor now tg : Nat) (tgNick mbNick : String)
    (date s e durMin : Nat)
    (hb : findB db bid = some b)
    (hfresh : ∀ c ∈ db.bookings, c.id < db.nextId) :
    ((createFlow tg tgNick mbNick date s e durMin now).length = 1
      ∧ eventCount (applyAll (createFlow tg tgNick mbNick date s e durMin now) db)
          db.nextId "created"
        = eventCount db db.nextId "created" + 1
      ∧ (findB (applyAll (createFlow tg tgNick mbNick date s e durMin now) db)
          db.nextId).map Booking.status = some "pending")
    ∧ (eventCount (applyAll (confirmFlow bid actor now) db) bid "confirmed"
          = eventCount db bid "confirmed" + 1
      ∧ findB (applyAll (confirmFlow bid actor now) db) bid
          = some { b with status := "confirmed", confirmed_at := some now })
    ∧ (eventCount (applyAll (cancelUserFlow bid actor now) db) bid
          "cancelled_user"
          = eventCount db bid "cancelled_user" + 1
      ∧ findB (applyAll (cancelUserFlow bid actor now) db) bid
          = some { b with
              status := "cancelled_by_user",
              cancelled_at := some now,
              cancelled_by := some "user",
              cancel_reason := some "Отменена пользователем" })
    ∧ (eventCount (applyAll (completeFlow bid now) db) bid "completed"
          = eventCount db bid "completed" + 1
      ∧ findB (applyAll (completeFlow bid now) db) bid
          = some { b with status := "completed", completed_at := some now }) := by
  refine ⟨⟨rfl, ?_, ?_⟩, ⟨?_, ?_⟩, ⟨?_, ?_⟩, ⟨?_, ?_⟩⟩
  · show ((db.events
        ++ [BookingEvent.mk db.nextId "created" (some tg) "user" none now]).filter
          (fun ev => ev.booking_id == db.nextId && ev.event_type == "created")).length
      = (db.events.filter
          (fun ev => ev.booking_id == db.nextId && ev.event_type == "created")).length + 1
    rw [List.filter_append, List.length_append]
    simp
  · have hnone : db.bookings.find? (fun x => x.id == db.nextId) = none := by
      rw [List.find?_eq_none]
      intro x hx
      simp only [beq_iff_eq]
      exact Nat.ne_of_lt (hfresh x hx)
    show ((db.bookings
        ++ [(⟨db.nextId, tg, tgNick, mbNick, date, s, e, durMin, "pending",
              now, none, none, none, none, none, 0, 0⟩ : Booking)]).find?
          (fun (x : Booking) => x.id == db.nextId)).map Booking.status
        = some "pending"
    rw [List.find?_append, hnone]
    simp
  · rw [show applyAll (confirmFlow bid actor now) db
        = add_booking_event (confirm_booking db bid now) bid "confirmed" "user"
            (some actor) now from rfl,
      eventCount_add_event, eventCount_confirm_booking, if_pos ⟨rfl, rfl⟩]
  · rw [show applyAll (confirmFlow bid actor now) db
        = add_booking_event (confirm_booking db bid now) bid "confirmed" "user"
            (some actor) now from rfl,
      findB_add_event, findB_confirm_booking, if_pos rfl, hb]
    rfl
  · rw [show applyAll (cancelUserFlow bid actor now) db
        = add_booking_event (cancel_booking db bid "user" "Отменена пользователем" now)
            bid "cancelled_user" "user" (some actor) now from rfl,
      eventCount_add_event, eventCount_cancel_booking, if_pos ⟨rfl, rfl⟩]
  · rw [show applyAll (cancelUserFlow bid actor now) db
        = add_booking_event (cancel_booking db bid "user" "Отменена пользователем" now)
            bid "cancelled_user" "user" (some actor) now from rfl,
      findB_add_event, findB_cancel_booking, if_pos rfl, hb]
    rfl
  · rw [show applyAll (completeFlow bid now) db
        = add_booking_event (complete_booking db bid now) bid "completed" "system"
            none now from rfl,
      eventCount_add_event, eventCount_complete_booking, if_pos ⟨rfl, rfl⟩]
  · rw [show applyAll (completeFlow bid now) db
        = add_booking_event (complete_booking db bid now) bid "completed" "system"
            none now from rfl,
      findB_add_event, findB_complete_booking, if_pos rfl, hb]
    rfl

/-- C2 witness: the confirm flow on a concrete one-booking store ends with
exactly one new `confirmed` event and the transitioned row. -/
theorem C2_witness :
    eventCount (applyAll (confirmFlow 3 42 700)
        (DB.mk [mkBooking 3 10 0 600 660 "pending" 0 0]
          [BookingEvent.mk 3 "created" (some 10) "user" none 500] 4)) 3 "confirmed"
      = eventCount (DB.mk [mkBooking 3 10 0 600 660 "pending" 0 0]
          [BookingEvent.mk 3 "created" (some 10) "user" none 500] 4) 3 "confirmed" + 1
    ∧ findB (applyAll (confirmFlow 3 42 700)
        (DB.mk [mkBooking 3 10 0 600 660 "pending" 0 0]
          [BookingEvent.mk 3 "created" (some 10) "user" none 500] 4)) 3
      = some { mkBooking 3 10 0 600 660 "pending" 0 0 with
          status := "confirmed",
          confirmed_at := some 700 } :=
  (C2_transition_events_amended
    (DB.mk [mkBooking 3 10 0 600 660 "pending" 0 0]
      [BookingEvent.mk 3 "created" (some 10) "user" none 500] 4)
    (mkBooking 3 10 0 600 660 "pending" 0 0) 3 42 700 9 "t" "m" 0 600 660 60
    (by decide) (by decide)).2.1

end MementoMori
